import Mathlib

/-!
Verification model of the geodesic engine in src/src/geodesic.c (the C port of
GeographicLib inside PROJ).

Modelling conventions, used throughout:

* IEEE doubles are modelled by exact rationals `ℚ`.  Every arithmetic
  operation of the C code is translated to the corresponding exact rational
  operation; the IEEE functions `remainder`, `remquo`, `copysign`, `fabs`,
  `fmax`, `fmin` are exactly representable over `ℚ` and are translated
  faithfully (IEEE `remainder` is always exact, and `copysign`/`fabs` are bit
  operations).  Rounding error, overflow and signed zero are outside this
  idealisation; theorems that depend on a NaN-propagating semantics use the
  separate `OptD` model further below, where `none` plays the role of NaN.
* The transcendental libm primitives (`sin`, `cos`, `atan2`, `sqrt`, `hypot`,
  `cbrt`, `atanh`, `atan`) and the constant `pi` have no exact rational
  values; they enter the model as an oracle structure `Prim`.  Theorems either
  hold for every oracle, or assume the few exactness facts of IEEE libm that
  the code relies on (e.g. `sin 0 = 0`), stated as explicit hypotheses.
* `Prim.nan` is a junk rational standing in for a NaN produced on a path that
  the surrounding theorem excludes by hypothesis (the `ℚ` model is only used
  on NaN-free paths; NaN-producing paths are analysed in the `OptD` model).
* C arrays are `List ℚ` with `List.getD`; pointer offsets become `List.drop`.
* Output pointers that may be null become `Bool` request flags; an output that
  the C code does not write keeps the local variable's initial value `0`,
  exactly as in the source.
-/

namespace Geod

/-- Oracle for the libm primitives used by geodesic.c.  The rational model
cannot compute transcendental functions exactly, so they are parameters; a
theorem quantifying over `O : Prim` holds for every implementation of libm. -/
structure Prim where
  sin : ℚ → ℚ
  cos : ℚ → ℚ
  atan2 : ℚ → ℚ → ℚ
  sqrt : ℚ → ℚ
  hypot : ℚ → ℚ → ℚ
  cbrt : ℚ → ℚ
  atanh : ℚ → ℚ
  atan : ℚ → ℚ
  pi : ℚ
  nan : ℚ

/-- Quarter turn in degrees (enum dms: qd = 90). -/
def qd : ℚ := 90

/-- Half turn in degrees (hd = 2 * qd). -/
def hd : ℚ := 2 * qd

/-- Full turn in degrees (td = 2 * hd). -/
def td : ℚ := 2 * hd

/-- DBL_MANT_DIG, the `digits` constant of Init. -/
def digits : ℕ := 53

/-- DBL_EPSILON = 2^-52, the `epsilon` constant of Init. -/
def epsilon : ℚ := 1 / 2 ^ 52

/-- DBL_MIN = 2^-1022, the `realmin` constant of Init. -/
def realmin : ℚ := 1 / 2 ^ 1022

/-- maxit1 = 20 (Init). -/
def maxit1 : ℕ := 20

/-- maxit2 = maxit1 + digits + 10 (Init). -/
def maxit2 : ℕ := maxit1 + digits + 10

/-- tiny = sqrt(realmin) (Init). -/
def tiny (O : Prim) : ℚ := O.sqrt realmin

/-- tol0 = epsilon (Init). -/
def tol0 : ℚ := epsilon

/-- tol1 = 200 * tol0 (Init). -/
def tol1 : ℚ := 200 * tol0

/-- tol2 = sqrt(tol0) (Init). -/
def tol2 (O : Prim) : ℚ := O.sqrt tol0

/-- tolb = tol0 (Init). -/
def tolb : ℚ := tol0

/-- xthresh = 1000 * tol2 (Init). -/
def xthresh (O : Prim) : ℚ := 1000 * tol2 O

/-- degree = pi / hd (Init). -/
def degree (O : Prim) : ℚ := O.pi / hd

/-- Round a rational to the nearest integer, ties to even: the rounding used
by IEEE `remainder`/`remquo` for the quotient. -/
def roundEven (z : ℚ) : ℤ :=
  let n := ⌊z⌋
  let r := z - (n : ℚ)
  if r < 1 / 2 then n
  else if 1 / 2 < r then n + 1
  else if 2 ∣ n then n else n + 1

/-- IEEE remainder(x, y): x - y * roundEven(x / y); always exact over ℚ for
y ≠ 0, exactly as the IEEE operation is exact over doubles. -/
def remainderQ (x y : ℚ) : ℚ := x - y * (roundEven (x / y) : ℚ)

/-- IEEE remquo(x, y): the remainder together with the (exact) rounded
quotient, of which the C code only uses the low bits. -/
def remquoQ (x y : ℚ) : ℚ × ℤ := (remainderQ x y, roundEven (x / y))

/-- C signbit on the exact model (negative zero does not exist in ℚ). -/
def signbitQ (x : ℚ) : Bool := decide (x < 0)

/-- C copysign on the exact model: magnitude of the first argument, sign of
the second (a zero second argument counts as positive, like +0.0). -/
def copysignQ (v s : ℚ) : ℚ := if s < 0 then -|v| else |v|

/-- C fmax (no NaNs in the exact model). -/
def fmaxQ (x y : ℚ) : ℚ := max x y

/-- C fmin (no NaNs in the exact model). -/
def fminQ (x y : ℚ) : ℚ := min x y

/-- sq(x) = x * x. -/
def sq (x : ℚ) : ℚ := x * x

/-- sumx(u, v): the error-free two-sum transformation; in the exact model the
rounded sum is the exact sum, translated operation by operation. -/
def sumx (u v : ℚ) : ℚ × ℚ :=
  let s := u + v
  let up0 := s - v
  let vpp0 := s - up0
  let up := up0 - u
  let vpp := vpp0 - v
  let t := if s ≠ 0 then 0 - (up + vpp) else s
  (s, t)

/-- polyvalx(N, p, x): Horner evaluation of the degree-N polynomial with
coefficient pointer p (leading coefficient first). -/
def polyvalx (N : ℤ) (p : List ℚ) (x : ℚ) : ℚ :=
  if N < 0 then 0
  else (List.range N.toNat).foldl (fun y i => y * x + p.getD (i + 1) 0) (p.getD 0 0)

/-- norm2(sinx, cosx): normalize a sine/cosine pair by its hypot. -/
def norm2 (O : Prim) (sinx cosx : ℚ) : ℚ × ℚ :=
  let r := O.hypot sinx cosx
  (sinx / r, cosx / r)

/-- AngNormalize(x): remainder by 360, with the ±180 boundary resolved by the
sign of the input. -/
def AngNormalize (x : ℚ) : ℚ :=
  let y := remainderQ x td
  if |y| = hd then copysignQ hd x else y

/-- LatFix(x): an out-of-range latitude becomes NaN.  In the exact model the
NaN is the junk value `O.nan`; theorems using this function on the ℚ side
restrict to |x| ≤ 90 where it is the identity. -/
def LatFix (O : Prim) (x : ℚ) : ℚ := if |x| > qd then O.nan else x

/-- AngDiff(x, y): the exactly-rounded difference of two angles, returned with
its rounding error term, built from two remainders and two two-sums with the
sign of an exact 0 or ±180 result fixed from y - x. -/
def AngDiff (x y : ℚ) : ℚ × ℚ :=
  let s1 := sumx (remainderQ (-x) td) (remainderQ y td)
  let s2 := sumx (remainderQ s1.1 td) s1.2
  let d := s2.1
  let t := s2.2
  let d2 := if d = 0 ∨ |d| = hd then copysignQ d (if t = 0 then y - x else -t) else d
  (d2, t)

/-- AngRound(x): snap tiny values to a fixed quantum; in exact arithmetic the
`z - (z - y)` idiom is the identity, kept operation by operation. -/
def AngRound (x : ℚ) : ℚ :=
  let z : ℚ := 1 / 16
  let y := |x|
  let w := z - y
  let y2 := if w > 0 then z - w else y
  copysignQ y2 x

/-- sincosdx(x): sine and cosine of an angle in degrees, after exact range
reduction to [-45, 45] by remquo and quadrant adjustment. -/
def sincosdx (O : Prim) (x : ℚ) : ℚ × ℚ :=
  let rq := remquoQ x qd
  let r := rq.1 * degree O
  let s := O.sin r
  let c := O.cos r
  let q := rq.2.emod 4
  let sc : ℚ × ℚ :=
    if q = 0 then (s, c)
    else if q = 1 then (c, -s)
    else if q = 2 then (-s, -c)
    else (-c, s)
  let cosx := sc.2 + 0
  let sinx := if sc.1 = 0 then copysignQ sc.1 x else sc.1
  (sinx, cosx)

/-- sincosde(x, t): like sincosdx but folding a small correction t into the
reduced argument through AngRound. -/
def sincosde (O : Prim) (x t : ℚ) : ℚ × ℚ :=
  let rq := remquoQ x qd
  let r := AngRound (rq.1 + t) * degree O
  let s := O.sin r
  let c := O.cos r
  let q := rq.2.emod 4
  let sc : ℚ × ℚ :=
    if q = 0 then (s, c)
    else if q = 1 then (c, -s)
    else if q = 2 then (-s, -c)
    else (-c, s)
  let cosx := sc.2 + 0
  let sinx := if sc.1 = 0 then copysignQ sc.1 x else sc.1
  (sinx, cosx)

/-- atan2dx(y, x): atan2 in degrees with the arguments rearranged so the libm
atan2 runs in [-45, 45] and the quadrant is restored afterwards. -/
def atan2dx (O : Prim) (y x : ℚ) : ℚ :=
  let p1 : ℚ × ℚ × ℤ := if |y| > |x| then (y, x, 2) else (x, y, 0)
  let x1 := p1.1
  let y1 := p1.2.1
  let q1 := p1.2.2
  let p2 : ℚ × ℤ := if signbitQ x1 then (-x1, q1 + 1) else (x1, q1)
  let x2 := p2.1
  let q2 := p2.2
  let ang := O.atan2 y1 x2 / degree O
  if q2 = 1 then copysignQ hd y1 - ang
  else if q2 = 2 then qd - ang
  else if q2 = 3 then -qd + ang
  else ang

/-- Clenshaw accumulator loop of SinCosSeries: one unrolled double step per
iteration, reading the coefficients downward from index k. -/
def clenshawLoop (ar : ℚ) (c : List ℚ) : ℕ → ℕ → ℚ → ℚ → ℚ × ℚ
  | 0, _, y0, y1 => (y0, y1)
  | m + 1, k, y0, y1 =>
      let y1n := ar * y0 - y1 + c.getD (k - 1) 0
      let y0n := ar * y1n - y0 + c.getD (k - 2) 0
      clenshawLoop ar c m (k - 2) y0n y1n

/-- SinCosSeries(sinp, sinx, cosx, c, n): Clenshaw summation of the sine or
cosine series; for the sine series c[0] is unused. -/
def SinCosSeries (sinp : Bool) (sinx cosx : ℚ) (c : List ℚ) (n : ℕ) : ℚ :=
  let k0 := n + (if sinp then 1 else 0)
  let ar := 2 * (cosx - sinx) * (cosx + sinx)
  let start : ℚ × ℕ := if n % 2 = 1 then (c.getD (k0 - 1) 0, k0 - 1) else (0, k0)
  let y := clenshawLoop ar c (n / 2) start.2 start.1 0
  if sinp then 2 * sinx * cosx * y.1 else cosx * (y.1 - y.2)

/-- A1m1f(eps): the scale factor A1 - 1 (static coefficient table inlined). -/
def A1m1f (eps : ℚ) : ℚ :=
  let coeff : List ℚ := [1, 4, 64, 0, 256]
  let m : ℕ := 6 / 2
  let t := polyvalx (m : ℤ) coeff (sq eps) / coeff.getD (m + 1) 0
  (t + eps) / (1 - eps)

/-- One l-step of the C1f/C1pf/C2f generator loops: coefficient
c[l] = d * polyvalx(m, coeff + o, eps2) / coeff[o + m + 1], with the offset o
advancing by m + 2 and the multiplier d by a factor of eps each step.  The
list ms holds the successive polynomial orders m dictated by the loop
bounds. -/
def fourierStep (coeff : List ℚ) (eps2 eps : ℚ) : List ℕ → ℚ → List ℚ
  | [], _ => []
  | m :: ms, d =>
      (d * polyvalx (m : ℤ) coeff eps2 / coeff.getD (m + 1) 0) ::
        fourierStep (coeff.drop (m + 2)) eps2 eps ms (d * eps)

/-- C1f(eps): coefficients C1[1..6] of the Fourier expansion of B1; returned
as a 7-element array with the unused c[0] slot set to 0. -/
def C1f (eps : ℚ) : List ℚ :=
  let coeff : List ℚ :=
    [-1, 6, -16, 32,
     -9, 64, -128, 2048,
     9, -16, 768,
     3, -5, 512,
     -7, 1280,
     -7, 2048]
  0 :: fourierStep coeff (sq eps) eps [2, 2, 1, 1, 0, 0] eps

/-- C1pf(eps): coefficients C1p[1..6] of the Fourier expansion of B1p. -/
def C1pf (eps : ℚ) : List ℚ :=
  let coeff : List ℚ :=
    [205, -432, 768, 1536,
     4005, -4736, 3840, 12288,
     -225, 116, 384,
     -7173, 2695, 7680,
     3467, 7680,
     38081, 61440]
  0 :: fourierStep coeff (sq eps) eps [2, 2, 1, 1, 0, 0] eps

/-- A2m1f(eps): the scale factor A2 - 1. -/
def A2m1f (eps : ℚ) : ℚ :=
  let coeff : List ℚ := [-11, -28, -192, 0, 256]
  let m : ℕ := 6 / 2
  let t := polyvalx (m : ℤ) coeff (sq eps) / coeff.getD (m + 1) 0
  (t - eps) / (1 + eps)

/-- C2f(eps): coefficients C2[1..6] of the Fourier expansion of B2. -/
def C2f (eps : ℚ) : List ℚ :=
  let coeff : List ℚ :=
    [1, 2, 16, 32,
     35, 64, 384, 2048,
     15, 80, 768,
     7, 35, 512,
     63, 1280,
     77, 2048]
  0 :: fourierStep coeff (sq eps) eps [2, 2, 1, 1, 0, 0] eps

/-- One entry of the A3coeff/C3coeff/C4coeff generator loops: each loop step
emits polyvalx(m, coeff + o, n) / coeff[o + m + 1] and advances the offset o
by m + 2; the list ms holds the successive polynomial orders m dictated by
the loop bounds of the source. -/
def coeffBlocks (n : ℚ) : List ℕ → List ℚ → List ℚ
  | [], _ => []
  | m :: ms, tab =>
      (polyvalx (m : ℤ) tab n / tab.getD (m + 1) 0) ::
        coeffBlocks n ms (tab.drop (m + 2))

/-- The ellipsoid model struct geod_geodesic: input parameters, derived
constants, and the three n-dependent coefficient tables. -/
structure geod_geodesic where
  a : ℚ
  f : ℚ
  f1 : ℚ
  e2 : ℚ
  ep2 : ℚ
  n : ℚ
  b : ℚ
  c2 : ℚ
  etol2 : ℚ
  A3x : List ℚ
  C3x : List ℚ
  C4x : List ℚ

/-- A3coeff: the 6-entry table A3x, rational polynomials in n; m-schedule
[0,1,2,2,1,0] from the loop j = 5..0 with m = min(5-j, j). -/
def A3coeff (n : ℚ) : List ℚ :=
  let coeff : List ℚ :=
    [-3, 128,
     -2, -3, 64,
     -1, -3, -1, 16,
     3, -1, -2, 8,
     1, -1, 2,
     1, 1]
  coeffBlocks n [0, 1, 2, 2, 1, 0] coeff

/-- C3coeff: the 15-entry table C3x; m-schedule from the nested loops
l = 1..5, j = 5..l with m = min(5-j, j). -/
def C3coeff (n : ℚ) : List ℚ :=
  let coeff : List ℚ :=
    [3, 128,
     2, 5, 128,
     -1, 3, 3, 64,
     -1, 0, 1, 8,
     -1, 1, 4,
     5, 256,
     1, 3, 128,
     -3, -2, 3, 64,
     1, -3, 2, 32,
     7, 512,
     -10, 9, 384,
     5, -9, 5, 192,
     7, 512,
     -14, 7, 512,
     21, 2560]
  coeffBlocks n [0, 1, 2, 2, 1,  0, 1, 2, 2,  0, 1, 2,  0, 1,  0] coeff

/-- C4coeff: the 21-entry table C4x; m-schedule from the nested loops
l = 0..5, j = 5..l with m = 5 - j. -/
def C4coeff (n : ℚ) : List ℚ :=
  let coeff : List ℚ :=
    [97, 15015,
     1088, 156, 45045,
     -224, -4784, 1573, 45045,
     -10656, 14144, -4576, -858, 45045,
     64, 624, -4576, 6864, -3003, 15015,
     100, 208, 572, 3432, -12012, 30030, 45045,
     1, 9009,
     -2944, 468, 135135,
     5792, 1040, -1287, 135135,
     5952, -11648, 9152, -2574, 135135,
     -64, -624, 4576, -6864, 3003, 135135,
     8, 10725,
     1856, -936, 225225,
     -8448, 4992, -1144, 225225,
     -1440, 4160, -4576, 1716, 225225,
     -136, 63063,
     1024, -208, 105105,
     3584, -3328, 1144, 315315,
     -128, 135135,
     -2560, 832, 405405,
     128, 99099]
  coeffBlocks n
    [0, 1, 2, 3, 4, 5,  0, 1, 2, 3, 4,  0, 1, 2, 3,  0, 1, 2,  0, 1,  0] coeff

/-- geod_init(a, f): fill in all derived constants and coefficient tables of
the ellipsoid model. -/
def geod_init (O : Prim) (a f : ℚ) : geod_geodesic :=
  let f1 := 1 - f
  let e2 := f * (2 - f)
  let ep2 := e2 / sq f1
  let n := f / (2 - f)
  let b := a * f1
  let c2 := (sq a + sq b *
      (if e2 = 0 then 1
       else (if e2 > 0 then O.atanh (O.sqrt e2) else O.atan (O.sqrt (-e2))) /
         O.sqrt |e2|)) / 2
  let etol2 := (1 / 10) * tol2 O /
    O.sqrt (fmaxQ (1 / 1000) |f| * fminQ 1 (1 - f / 2) / 2)
  { a := a, f := f, f1 := f1, e2 := e2, ep2 := ep2, n := n, b := b, c2 := c2,
    etol2 := etol2, A3x := A3coeff n, C3x := C3coeff n, C4x := C4coeff n }

/-- A3f(g, eps): evaluate the A3 series from the table A3x. -/
def A3f (g : geod_geodesic) (eps : ℚ) : ℚ :=
  polyvalx (6 - 1 : ℤ) g.A3x eps

/-- C3f(g, eps): evaluate C3[1..5] from the table C3x; offsets 0,5,9,12,14
and orders 4,3,2,1,0 from the loop l = 1..5 with m = 6 - l - 1. -/
def C3f (g : geod_geodesic) (eps : ℚ) : List ℚ :=
  let m1 := eps
  let c1 := m1 * polyvalx 4 (g.C3x.drop 0) eps
  let m2 := m1 * eps
  let c2 := m2 * polyvalx 3 (g.C3x.drop 5) eps
  let m3 := m2 * eps
  let c3 := m3 * polyvalx 2 (g.C3x.drop 9) eps
  let m4 := m3 * eps
  let c4 := m4 * polyvalx 1 (g.C3x.drop 12) eps
  let m5 := m4 * eps
  let c5 := m5 * polyvalx 0 (g.C3x.drop 14) eps
  [0, c1, c2, c3, c4, c5, 0]

/-- C4f(g, eps): evaluate C4[0..5] from the table C4x; offsets
0,6,11,15,18,20 and orders 5,4,3,2,1,0 from the loop l = 0..5 with
m = 6 - l - 1, the eps multiplier advancing after each entry. -/
def C4f (g : geod_geodesic) (eps : ℚ) : List ℚ :=
  let c0 := 1 * polyvalx 5 (g.C4x.drop 0) eps
  let m1 := eps
  let c1 := m1 * polyvalx 4 (g.C4x.drop 6) eps
  let m2 := m1 * eps
  let c2 := m2 * polyvalx 3 (g.C4x.drop 11) eps
  let m3 := m2 * eps
  let c3 := m3 * polyvalx 2 (g.C4x.drop 15) eps
  let m4 := m3 * eps
  let c4 := m4 * polyvalx 1 (g.C4x.drop 18) eps
  let m5 := m4 * eps
  let c5 := m5 * polyvalx 0 (g.C4x.drop 20) eps
  [c0, c1, c2, c3, c4, c5, 0]

/-- Result fields of Lengths; a field whose request flag was false keeps the
C local's initial value 0 (the caller does not read it in that case). -/
structure LengthsOut where
  s12b : ℚ
  m12b : ℚ
  m0 : ℚ
  M12 : ℚ
  M21 : ℚ

/-- Lengths: distance/b, reduced length/b, the secular coefficient m0 and the
geodesic scales, with the request flags mirroring which output pointers the
caller passed as non-null (this selects between the two J12 computation
paths exactly as in the source). -/
def Lengths (g : geod_geodesic)
    (eps sig12 ssig1 csig1 dn1 ssig2 csig2 dn2 cbet1 cbet2 : ℚ)
    (ps12b pm12b pm0 pM12 pM21 : Bool) : LengthsOut :=
  let redlp := pm12b || pm0 || pM12 || pM21
  let A1 := if ps12b || redlp then 1 + A1m1f eps else 0
  let A2 := if redlp then 1 + A2m1f eps else 0
  let m0 := if redlp then (A1 - 1) - (A2 - 1) else 0
  let Ca := C1f eps
  let Cb := C2f eps
  let B1 := SinCosSeries true ssig2 csig2 Ca 6 - SinCosSeries true ssig1 csig1 Ca 6
  let B2 := SinCosSeries true ssig2 csig2 Cb 6 - SinCosSeries true ssig1 csig1 Cb 6
  let Cbp := Cb.getD 0 0 ::
    (List.range 6).map (fun i => A1 * Ca.getD (i + 1) 0 - A2 * Cb.getD (i + 1) 0)
  let J12 :=
    if ps12b then
      (if redlp then m0 * sig12 + (A1 * B1 - A2 * B2) else 0)
    else if redlp then
      m0 * sig12 + (SinCosSeries true ssig2 csig2 Cbp 6 -
        SinCosSeries true ssig1 csig1 Cbp 6)
    else 0
  let s12b := if ps12b then A1 * (sig12 + B1) else 0
  let m12b := if pm12b then
      dn2 * (csig1 * ssig2) - dn1 * (ssig1 * csig2) - csig1 * csig2 * J12
    else 0
  let csig12 := csig1 * csig2 + ssig1 * ssig2
  let t := g.ep2 * (cbet1 - cbet2) * (cbet1 + cbet2) / (dn1 + dn2)
  let M12 := if pM12 then csig12 + (t * ssig2 - csig2 * J12) * ssig1 / dn1 else 0
  let M21 := if pM21 then csig12 - (t * ssig1 - csig1 * J12) * ssig2 / dn2 else 0
  { s12b := s12b, m12b := m12b, m0 := if pm0 then m0 else 0, M12 := M12, M21 := M21 }

/-- Astroid(x, y): positive root of k^4 + 2k^3 - (x^2+y^2-1)k^2 - 2y^2 k - y^2,
the closed-form quartic solve of the near-antipodal bootstrap. -/
def Astroid (O : Prim) (x y : ℚ) : ℚ :=
  let p := sq x
  let q := sq y
  let r := (p + q - 1) / 6
  if ¬(q = 0 ∧ r ≤ 0) then
    let S := p * q / 4
    let r2 := sq r
    let r3 := r * r2
    let disc := S * (S + 2 * r3)
    let u :=
      if disc ≥ 0 then
        let T3 := S + r3
        let T3 := T3 + (if T3 < 0 then -(O.sqrt disc) else O.sqrt disc)
        let T := O.cbrt T3
        r + T + (if T ≠ 0 then r2 / T else 0)
      else
        let ang := O.atan2 (O.sqrt (-disc)) (-(S + r3))
        r + 2 * r * O.cos (ang / 3)
    let v := O.sqrt (sq u + q)
    let uv := if u < 0 then q / (v - u) else u + v
    let w := (uv - q) / (2 * v)
    uv / (O.sqrt (uv + sq w) + w)
  else 0

/-- Result of InverseStart: a nonnegative sig12 marks the short-line solution
(with salp2, calp2, dnm valid); otherwise only the starting azimuth
salp1, calp1 is meaningful, exactly mirroring the output-pointer contract. -/
structure StartOut where
  sig12 : ℚ
  salp1 : ℚ
  calp1 : ℚ
  salp2 : ℚ
  calp2 : ℚ
  dnm : ℚ
  shortline : Bool

/-- Fallback starting guess for salp1, calp1 in InverseStart when the
short-line estimate is not usable: the astroid-based ansatz of the source,
followed by the sanity renormalization. -/
def InverseStartFallback (O : Prim) (g : geod_geodesic)
    (sbet1 cbet1 dn1 sbet2 cbet2 dn2 slam12 clam12
     sbet12a salp1 calp1 ssig12 csig12 : ℚ) : ℚ × ℚ :=
  let sc : ℚ × ℚ :=
    if |g.n| > 1 / 10 ∨ csig12 ≥ 0 ∨ ssig12 ≥ 6 * |g.n| * O.pi * sq cbet1 then
      (salp1, calp1)
    else
      let lam12x := O.atan2 (-slam12) (-clam12)
      let xyls : ℚ × ℚ × ℚ × ℚ :=
        if g.f ≥ 0 then
          let k2 := sq sbet1 * g.ep2
          let eps := k2 / (2 * (1 + O.sqrt (1 + k2)) + k2)
          let lamscale := g.f * cbet1 * A3f g eps * O.pi
          let betscale := lamscale * cbet1
          (lam12x / lamscale, sbet12a / betscale, lamscale, betscale)
        else
          let cbet12a := cbet2 * cbet1 - sbet2 * sbet1
          let bet12a := O.atan2 sbet12a cbet12a
          let L := Lengths g g.n (O.pi + bet12a)
            sbet1 (-cbet1) dn1 sbet2 cbet2 dn2 cbet1 cbet2
            false true true false false
          let x := -1 + L.m12b / (cbet1 * cbet2 * L.m0 * O.pi)
          let betscale := if x < -(1 / 100) then sbet12a / x
            else -g.f * sq cbet1 * O.pi
          let lamscale := betscale / cbet1
          (x, lam12x / lamscale, lamscale, betscale)
      let x := xyls.1
      let y := xyls.2.1
      let lamscale := xyls.2.2.1
      if y > -tol1 ∧ x > -1 - xthresh O then
        if g.f ≥ 0 then
          let s := fminQ 1 (-x)
          (s, -(O.sqrt (1 - sq s)))
        else
          let c := fmaxQ (if x > -tol1 then 0 else -1) x
          (O.sqrt (1 - sq c), c)
      else
        let k := Astroid O x y
        let omg12a := lamscale *
          (if g.f ≥ 0 then -x * k / (1 + k) else -y * (1 + k) / k)
        let somg12b := O.sin omg12a
        let comg12b := -(O.cos omg12a)
        let salp1b := cbet2 * somg12b
        let calp1b := sbet12a - cbet2 * sbet1 * sq somg12b / (1 - comg12b)
        (salp1b, calp1b)
  if ¬(sc.1 ≤ 0) then norm2 O sc.1 sc.2 else (1, 0)

/-- InverseStart: starting point for Newton's method (salp1, calp1), or the
complete short-line solution; includes the astroid-based near-antipodal
bootstrap. -/
def InverseStart (O : Prim) (g : geod_geodesic)
    (sbet1 cbet1 dn1 sbet2 cbet2 dn2 lam12 slam12 clam12 : ℚ) : StartOut :=
  let sbet12 := sbet2 * cbet1 - cbet2 * sbet1
  let cbet12 := cbet2 * cbet1 + sbet2 * sbet1
  let shortline := cbet12 ≥ 0 ∧ sbet12 < 1 / 2 ∧ cbet2 * lam12 < 1 / 2
  let sbet12a := sbet2 * cbet1 + cbet2 * sbet1
  let dnm :=
    if shortline then
      let sbetm2a := sq (sbet1 + sbet2)
      let sbetm2 := sbetm2a / (sbetm2a + sq (cbet1 + cbet2))
      O.sqrt (1 + g.ep2 * sbetm2)
    else 0
  let sc12 : ℚ × ℚ :=
    if shortline then
      let omg12 := lam12 / (g.f1 * dnm)
      (O.sin omg12, O.cos omg12)
    else (slam12, clam12)
  let somg12 := sc12.1
  let comg12 := sc12.2
  let salp1 := cbet2 * somg12
  let calp1 :=
    if comg12 ≥ 0 then sbet12 + cbet2 * sbet1 * sq somg12 / (1 + comg12)
    else sbet12a - cbet2 * sbet1 * sq somg12 / (1 - comg12)
  let ssig12 := O.hypot salp1 calp1
  let csig12 := sbet1 * sbet2 + cbet1 * cbet2 * comg12
  if shortline ∧ ssig12 < g.etol2 then
    let salp2 := cbet1 * somg12
    let calp2 := sbet12 - cbet1 * sbet2 *
      (if comg12 ≥ 0 then sq somg12 / (1 + comg12) else 1 - comg12)
    let n2 := norm2 O salp2 calp2
    let sig12 := O.atan2 ssig12 csig12
    { sig12 := sig12, salp1 := salp1, calp1 := calp1,
      salp2 := n2.1, calp2 := n2.2, dnm := dnm, shortline := shortline }
  else
    let sane : ℚ × ℚ := InverseStartFallback O g sbet1 cbet1 dn1 sbet2 cbet2
      dn2 slam12 clam12 sbet12a salp1 calp1 ssig12 csig12
    { sig12 := -1, salp1 := sane.1, calp1 := sane.2,
      salp2 := 0, calp2 := 0, dnm := dnm, shortline := shortline }

/-- Result of one Lambda12 evaluation: the function value lam12 and the
auxiliary quantities written through its output pointers. -/
structure Lam12Out where
  lam12 : ℚ
  salp2 : ℚ
  calp2 : ℚ
  sig12 : ℚ
  ssig1 : ℚ
  csig1 : ℚ
  ssig2 : ℚ
  csig2 : ℚ
  eps : ℚ
  domg12 : ℚ
  dlam12 : ℚ

/-- Lambda12: the longitude equation evaluated at the trial azimuth
(salp1, calp1), plus its derivative when diffp is set. -/
def Lambda12 (O : Prim) (g : geod_geodesic)
    (sbet1 cbet1 dn1 sbet2 cbet2 dn2 salp1 calp1 slam120 clam120 : ℚ)
    (diffp : Bool) : Lam12Out :=
  let calp1 := if sbet1 = 0 ∧ calp1 = 0 then -(tiny O) else calp1
  let salp0 := salp1 * cbet1
  let calp0 := O.hypot calp1 (salp1 * sbet1)
  let somg1 := salp0 * sbet1
  let comg1 := calp1 * cbet1
  let n1 := norm2 O sbet1 (calp1 * cbet1)
  let ssig1 := n1.1
  let csig1 := n1.2
  let salp2 := if cbet2 ≠ cbet1 then salp0 / cbet2 else salp1
  let calp2 :=
    if cbet2 ≠ cbet1 ∨ |sbet2| ≠ -sbet1 then
      O.sqrt (sq (calp1 * cbet1) +
        (if cbet1 < -sbet1 then (cbet2 - cbet1) * (cbet1 + cbet2)
         else (sbet1 - sbet2) * (sbet1 + sbet2))) / cbet2
    else |calp1|
  let somg2 := salp0 * sbet2
  let comg2 := calp2 * cbet2
  let n2 := norm2 O sbet2 (calp2 * cbet2)
  let ssig2 := n2.1
  let csig2 := n2.2
  let sig12 := O.atan2 (fmaxQ 0 (csig1 * ssig2 - ssig1 * csig2) + 0)
    (csig1 * csig2 + ssig1 * ssig2)
  let somg12 := fmaxQ 0 (comg1 * somg2 - somg1 * comg2) + 0
  let comg12 := comg1 * comg2 + somg1 * somg2
  let eta := O.atan2 (somg12 * clam120 - comg12 * slam120)
    (comg12 * clam120 + somg12 * slam120)
  let k2 := sq calp0 * g.ep2
  let eps := k2 / (2 * (1 + O.sqrt (1 + k2)) + k2)
  let Ca := C3f g eps
  let B312 := SinCosSeries true ssig2 csig2 Ca 5 -
    SinCosSeries true ssig1 csig1 Ca 5
  let domg12 := -g.f * A3f g eps * salp0 * (sig12 + B312)
  let lam12 := eta + domg12
  let dlam12 :=
    if diffp then
      if calp2 = 0 then -2 * g.f1 * dn1 / sbet1
      else
        let L := Lengths g eps sig12 ssig1 csig1 dn1 ssig2 csig2 dn2
          cbet1 cbet2 false true false false false
        L.m12b * g.f1 / (calp2 * cbet2)
    else 0
  { lam12 := lam12, salp2 := salp2, calp2 := calp2, sig12 := sig12,
    ssig1 := ssig1, csig1 := csig1, ssig2 := ssig2, csig2 := csig2,
    eps := eps, domg12 := domg12, dlam12 := dlam12 }

/-- Capability bit CAP_C1 (enum captype of geodesic.c). -/
def CAP_C1 : ℕ := 1

/-- Capability bit CAP_C1p. -/
def CAP_C1p : ℕ := 2

/-- Capability bit CAP_C2. -/
def CAP_C2 : ℕ := 4

/-- Capability bit CAP_C3. -/
def CAP_C3 : ℕ := 8

/-- Capability bit CAP_C4. -/
def CAP_C4 : ℕ := 16

/-- CAP_ALL = 0x1F (enum captype). -/
def CAP_ALL : ℕ := 31

/-- OUT_ALL = 0x7F80 (enum captype), the mask of output-request bits. -/
def OUT_ALL : ℕ := 32640

/-- GEOD_NONE, from the geodesic.h declarations used by geodesic.c. -/
def GEOD_NONE : ℕ := 0

/-- GEOD_LATITUDE = 1 shifted left 7, capability mask for lat2 output. -/
def GEOD_LATITUDE : ℕ := 2 ^ 7

/-- GEOD_LONGITUDE = (1 shifted left 8) or CAP_C3. -/
def GEOD_LONGITUDE : ℕ := 2 ^ 8 ||| CAP_C3

/-- GEOD_AZIMUTH = 1 shifted left 9. -/
def GEOD_AZIMUTH : ℕ := 2 ^ 9

/-- GEOD_DISTANCE = (1 shifted left 10) or CAP_C1. -/
def GEOD_DISTANCE : ℕ := 2 ^ 10 ||| CAP_C1

/-- GEOD_DISTANCE_IN = (1 shifted left 11) or CAP_C1 or CAP_C1p: the
capability of accepting distance (rather than arc) as input. -/
def GEOD_DISTANCE_IN : ℕ := 2 ^ 11 ||| CAP_C1 ||| CAP_C1p

/-- GEOD_REDUCEDLENGTH = (1 shifted left 12) or CAP_C1 or CAP_C2. -/
def GEOD_REDUCEDLENGTH : ℕ := 2 ^ 12 ||| CAP_C1 ||| CAP_C2

/-- GEOD_GEODESICSCALE = (1 shifted left 13) or CAP_C1 or CAP_C2. -/
def GEOD_GEODESICSCALE : ℕ := 2 ^ 13 ||| CAP_C1 ||| CAP_C2

/-- GEOD_AREA = (1 shifted left 14) or CAP_C4. -/
def GEOD_AREA : ℕ := 2 ^ 14 ||| CAP_C4

/-- GEOD_ARCMODE flag. -/
def GEOD_ARCMODE : ℕ := 1

/-- GEOD_LONG_UNROLL flag = 1 shifted left 15. -/
def GEOD_LONG_UNROLL : ℕ := 2 ^ 15

/-- GEOD_NOFLAGS. -/
def GEOD_NOFLAGS : ℕ := 0

/-- State of the safeguarded Newton iteration of geod_geninverse_int: the
trial azimuth, the bracket, the two trip flags, and the outputs of the most
recent Lambda12 evaluation. -/
structure NSt where
  salp1 : ℚ
  calp1 : ℚ
  salp1a : ℚ
  calp1a : ℚ
  salp1b : ℚ
  calp1b : ℚ
  tripn : Bool
  tripb : Bool
  salp2 : ℚ
  calp2 : ℚ
  sig12 : ℚ
  ssig1 : ℚ
  csig1 : ℚ
  ssig2 : ℚ
  csig2 : ℚ
  eps : ℚ
  domg12 : ℚ

/-- The `for (;; ++numit)` Newton/bisection loop of geod_geninverse_int,
written with an explicit fuel argument so the recursion is structural; the
loop itself breaks unconditionally at numit = maxit2, so with fuel
maxit2 + 1 - numit the fuel can never be exhausted first (proved below).
Returns the final state together with the break-time iteration counter. -/
def newtonLoop (O : Prim) (g : geod_geodesic)
    (sbet1 cbet1 dn1 sbet2 cbet2 dn2 slam12 clam12 : ℚ) :
    ℕ → ℕ → NSt → NSt × ℕ
  | 0, numit, st => (st, numit)
  | fuel + 1, numit, st =>
      let L := Lambda12 O g sbet1 cbet1 dn1 sbet2 cbet2 dn2 st.salp1 st.calp1
        slam12 clam12 (decide (numit < maxit1))
      let v := L.lam12
      let dv := L.dlam12
      let st1 : NSt := { st with
        salp2 := L.salp2
        calp2 := L.calp2
        sig12 := L.sig12
        ssig1 := L.ssig1
        csig1 := L.csig1
        ssig2 := L.ssig2
        csig2 := L.csig2
        eps := L.eps
        domg12 := L.domg12 }
      if st1.tripb ∨ ¬(|v| ≥ (if st1.tripn then 8 else 1) * tol0) ∨
          numit = maxit2 then
        (st1, numit)
      else
        let st2 : NSt :=
          if v > 0 ∧ (numit > maxit1 ∨
              st1.calp1 / st1.salp1 > st1.calp1b / st1.salp1b) then
            { st1 with salp1b := st1.salp1, calp1b := st1.calp1 }
          else if v < 0 ∧ (numit > maxit1 ∨
              st1.calp1 / st1.salp1 < st1.calp1a / st1.salp1a) then
            { st1 with salp1a := st1.salp1, calp1a := st1.calp1 }
          else st1
        let newtonUpd : Option NSt :=
          if numit < maxit1 ∧ dv > 0 then
            let dalp1 := -v / dv
            if |dalp1| < O.pi then
              let sdalp1 := O.sin dalp1
              let cdalp1 := O.cos dalp1
              let nsalp1 := st2.salp1 * cdalp1 + st2.calp1 * sdalp1
              if nsalp1 > 0 then
                let calp1n := st2.calp1 * cdalp1 - st2.salp1 * sdalp1
                let nn := norm2 O nsalp1 calp1n
                some { st2 with
                  salp1 := nn.1
                  calp1 := nn.2
                  tripn := decide (|v| ≤ 16 * tol0) }
              else none
            else none
          else none
        let st3 : NSt :=
          match newtonUpd with
          | some stn => stn
          | none =>
              let nn := norm2 O ((st2.salp1a + st2.salp1b) / 2)
                ((st2.calp1a + st2.calp1b) / 2)
              let tripb := decide
                (|st2.salp1a - nn.1| + (st2.calp1a - nn.2) < tolb ∨
                 |nn.1 - st2.salp1b| + (nn.2 - st2.calp1b) < tolb)
              { st2 with
                salp1 := nn.1
                calp1 := nn.2
                tripn := false
                tripb := tripb }
        newtonLoop O g sbet1 cbet1 dn1 sbet2 cbet2 dn2 slam12 clam12
          fuel (numit + 1) st3

/-- Intermediate results of the inverse core at the join point before the
area computation: azimuth sines/cosines, the scalar outputs, the surviving
meridian flag and the omega bookkeeping (somg12 = 2 is the marker for
"compute from omg12"). -/
structure PreArea where
  salp1 : ℚ
  calp1 : ℚ
  salp2 : ℚ
  calp2 : ℚ
  sig12 : ℚ
  s12x : ℚ
  m12x : ℚ
  M12 : ℚ
  M21 : ℚ
  a12 : ℚ
  meridian : Bool
  somg12 : ℚ
  comg12 : ℚ
  omg12 : ℚ

/-- Outputs of the canonical-frame inverse core: everything
geod_geninverse_int computes before the sign flips of the canonicalization
are undone (S12 is returned before its swapp * lonsign * latsign factor). -/
structure CoreOut where
  a12 : ℚ
  s12x : ℚ
  m12x : ℚ
  M12 : ℚ
  M21 : ℚ
  salp1 : ℚ
  calp1 : ℚ
  salp2 : ℚ
  calp2 : ℚ
  S12 : ℚ

/-- The equatorial closed-form branch of geod_geninverse_int (geodesic runs
along the equator): azimuths due east in the canonical frame, s12x = a * lam12
and a12 = lon12 / f1. -/
def coreEquatorial (O : Prim) (g : geod_geodesic) (outmask : ℕ)
    (lon12 lam12 : ℚ) : PreArea :=
  let sig12 := lam12 / g.f1
  let omg12 := lam12 / g.f1
  let m12x := g.b * O.sin sig12
  let MM := if outmask &&& GEOD_GEODESICSCALE ≠ 0 then O.cos sig12 else 0
  { salp1 := 1, calp1 := 0, salp2 := 1, calp2 := 0,
    sig12 := sig12, s12x := g.a * lam12, m12x := m12x,
    M12 := MM, M21 := MM, a12 := lon12 / g.f1,
    meridian := false, somg12 := 2, comg12 := 0, omg12 := omg12 }

/-- The general (non-meridional, non-equatorial) branch of
geod_geninverse_int: InverseStart, then either the short-line closed form or
the safeguarded Newton iteration followed by Lengths. -/
def coreGeneral (O : Prim) (g : geod_geodesic) (outmask : ℕ)
    (sbet1 cbet1 dn1 sbet2 cbet2 dn2 lam12 slam12 clam12 : ℚ) : PreArea :=
  let is := InverseStart O g sbet1 cbet1 dn1 sbet2 cbet2 dn2 lam12 slam12 clam12
  if is.sig12 ≥ 0 then
    let sig12 := is.sig12
    let dnm := is.dnm
    let s12x := sig12 * g.b * dnm
    let m12x := sq dnm * g.b * O.sin (sig12 / dnm)
    let MM := if outmask &&& GEOD_GEODESICSCALE ≠ 0 then O.cos (sig12 / dnm) else 0
    { salp1 := is.salp1, calp1 := is.calp1, salp2 := is.salp2, calp2 := is.calp2,
      sig12 := sig12, s12x := s12x, m12x := m12x, M12 := MM, M21 := MM,
      a12 := sig12 / degree O, meridian := false,
      somg12 := 2, comg12 := 0, omg12 := lam12 / (g.f1 * dnm) }
  else
    let st0 : NSt := {
      salp1 := is.salp1
      calp1 := is.calp1
      salp1a := tiny O
      calp1a := 1
      salp1b := tiny O
      calp1b := -1
      tripn := false
      tripb := false
      salp2 := 0
      calp2 := 0
      sig12 := 0
      ssig1 := 0
      csig1 := 0
      ssig2 := 0
      csig2 := 0
      eps := 0
      domg12 := 0 }
    let r := newtonLoop O g sbet1 cbet1 dn1 sbet2 cbet2 dn2 slam12 clam12
      (maxit2 + 1) 0 st0
    let st := r.1
    let scale := outmask &&& GEOD_GEODESICSCALE ≠ 0
    let L := Lengths g st.eps st.sig12 st.ssig1 st.csig1 dn1 st.ssig2 st.csig2
      dn2 cbet1 cbet2 true true false scale scale
    let m12x := L.m12b * g.b
    let s12x := L.s12b * g.b
    let oc : ℚ × ℚ :=
      if outmask &&& GEOD_AREA ≠ 0 then
        let sdomg12 := O.sin st.domg12
        let cdomg12 := O.cos st.domg12
        (slam12 * cdomg12 - clam12 * sdomg12,
         clam12 * cdomg12 + slam12 * sdomg12)
      else (2, 0)
    { salp1 := st.salp1, calp1 := st.calp1, salp2 := st.salp2, calp2 := st.calp2,
      sig12 := st.sig12, s12x := s12x, m12x := m12x,
      M12 := if scale then L.M12 else 0, M21 := if scale then L.M21 else 0,
      a12 := st.sig12 / degree O, meridian := false,
      somg12 := oc.1, comg12 := oc.2, omg12 := 0 }

/-- The area block at the end of geod_geninverse_int (lines computing S12 up
to, but not including, the swapp * lonsign * latsign sign restoration). -/
def coreArea (O : Prim) (g : geod_geodesic) (outmask : ℕ)
    (sbet1 cbet1 sbet2 cbet2 : ℚ) (pa : PreArea) : ℚ :=
  if outmask &&& GEOD_AREA ≠ 0 then
    let salp0 := pa.salp1 * cbet1
    let calp0 := O.hypot pa.calp1 (pa.salp1 * sbet1)
    let S12a :=
      if calp0 ≠ 0 ∧ salp0 ≠ 0 then
        let k2 := sq calp0 * g.ep2
        let eps := k2 / (2 * (1 + O.sqrt (1 + k2)) + k2)
        let A4 := sq g.a * calp0 * salp0 * g.e2
        let n1 := norm2 O sbet1 (pa.calp1 * cbet1)
        let n2 := norm2 O sbet2 (pa.calp2 * cbet2)
        let Ca := C4f g eps
        let B41 := SinCosSeries false n1.1 n1.2 Ca 6
        let B42 := SinCosSeries false n2.1 n2.2 Ca 6
        A4 * (B42 - B41)
      else 0
    let oc : ℚ × ℚ :=
      if ¬pa.meridian ∧ pa.somg12 = 2 then (O.sin pa.omg12, O.cos pa.omg12)
      else (pa.somg12, pa.comg12)
    let somg12 := oc.1
    let comg12 := oc.2
    let alp12 :=
      if ¬pa.meridian ∧ comg12 > -(7071 / 10000) ∧ sbet2 - sbet1 < 7 / 4 then
        let domg12 := 1 + comg12
        let dbet1 := 1 + cbet1
        let dbet2 := 1 + cbet2
        2 * O.atan2 (somg12 * (sbet1 * dbet2 + sbet2 * dbet1))
          (domg12 * (sbet1 * sbet2 + dbet1 * dbet2))
      else
        let salp12 := pa.salp2 * pa.calp1 - pa.calp2 * pa.salp1
        let calp12 := pa.calp2 * pa.calp1 + pa.salp2 * pa.salp1
        let pfix : ℚ × ℚ :=
          if salp12 = 0 ∧ calp12 < 0 then (tiny O * pa.calp1, -1)
          else (salp12, calp12)
        O.atan2 pfix.1 pfix.2
    S12a + g.c2 * alp12
  else 0

/-- The canonical-frame core of geod_geninverse_int: reduced-latitude trig,
the bet2 = ±bet1 symmetry enforcement, and the meridian / equatorial /
general dispatch, followed by the area block. -/
def geninverseCore (O : Prim) (g : geod_geodesic) (outmask : ℕ)
    (lat1 lat2 lon12 lon12s lam12 slam12 clam12 : ℚ) : CoreOut :=
  let sc1 := sincosdx O lat1
  let sbet1a := sc1.1 * g.f1
  let n1 := norm2 O sbet1a sc1.2
  let sbet1 := n1.1
  let cbet1 := fmaxQ (tiny O) n1.2
  let sc2 := sincosdx O lat2
  let sbet2a := sc2.1 * g.f1
  let n2 := norm2 O sbet2a sc2.2
  let sbet2b := n2.1
  let cbet2b := fmaxQ (tiny O) n2.2
  let p : ℚ × ℚ :=
    if cbet1 < -sbet1 then
      (if cbet2b = cbet1 then copysignQ sbet1 sbet2b else sbet2b, cbet2b)
    else
      (sbet2b, if |sbet2b| = -sbet1 then cbet1 else cbet2b)
  let sbet2 := p.1
  let cbet2 := p.2
  let dn1 := O.sqrt (1 + g.ep2 * sq sbet1)
  let dn2 := O.sqrt (1 + g.ep2 * sq sbet2)
  let meridian0 := lat1 = -qd ∨ slam12 = 0
  let general : PreArea :=
    if sbet1 = 0 ∧ (g.f ≤ 0 ∨ lon12s ≥ g.f * hd) then
      coreEquatorial O g outmask lon12 lam12
    else
      coreGeneral O g outmask sbet1 cbet1 dn1 sbet2 cbet2 dn2 lam12 slam12 clam12
  let pa : PreArea :=
    if meridian0 then
      let calp1 := clam12
      let salp1 := slam12
      let calp2 : ℚ := 1
      let salp2 : ℚ := 0
      let ssig1 := sbet1
      let csig1 := calp1 * cbet1
      let ssig2 := sbet2
      let csig2 := calp2 * cbet2
      let sig12 := O.atan2 (fmaxQ 0 (csig1 * ssig2 - ssig1 * csig2) + 0)
        (csig1 * csig2 + ssig1 * ssig2)
      let scale := outmask &&& GEOD_GEODESICSCALE ≠ 0
      let L := Lengths g g.n sig12 ssig1 csig1 dn1 ssig2 csig2 dn2 cbet1 cbet2
        true true false scale scale
      let s12x := L.s12b
      let m12x := L.m12b
      if sig12 < 1 ∨ m12x ≥ 0 then
        let z : ℚ × ℚ × ℚ :=
          if sig12 < 3 * tiny O ∨
              (sig12 < tol0 ∧ (s12x < 0 ∨ m12x < 0)) then (0, 0, 0)
          else (sig12, s12x, m12x)
        { salp1 := salp1, calp1 := calp1, salp2 := salp2, calp2 := calp2,
          sig12 := z.1, s12x := z.2.1 * g.b, m12x := z.2.2 * g.b,
          M12 := if scale then L.M12 else 0, M21 := if scale then L.M21 else 0,
          a12 := z.1 / degree O, meridian := true,
          somg12 := 2, comg12 := 0, omg12 := 0 }
      else general
    else general
  let S12 := coreArea O g outmask sbet1 cbet1 sbet2 cbet2 pa
  { a12 := pa.a12, s12x := pa.s12x, m12x := pa.m12x,
    M12 := pa.M12, M21 := pa.M21,
    salp1 := pa.salp1, calp1 := pa.calp1, salp2 := pa.salp2, calp2 := pa.calp2,
    S12 := S12 }

/-- The canonicalization record of geod_geninverse_int: canonical inputs plus
the three recorded sign flips (each 1 or -1, as rationals). -/
structure CanonState where
  lat1 : ℚ
  lat2 : ℚ
  lon12 : ℚ
  lon12s : ℚ
  lam12 : ℚ
  slam12 : ℚ
  clam12 : ℚ
  lonsign : ℚ
  latsign : ℚ
  swapp : ℚ

/-- Input canonicalization of geod_geninverse_int: make the longitude
difference positive, swap the endpoints so the one with larger absolute
latitude is first, and flip signs so lat1 ≤ 0; the `lat2 != lat2` NaN
disjunct of the swap test is identically false in the NaN-free exact model. -/
def canonicalize (O : Prim) (lat1i lon1 lat2i lon2 : ℚ) : CanonState :=
  let ad := AngDiff lon1 lon2
  let lonsign0 : ℚ := if signbitQ ad.1 then -1 else 1
  let lon12b := ad.1 * lonsign0
  let lon12sb := ad.2 * lonsign0
  let lam12 := lon12b * degree O
  let sc := sincosde O lon12b lon12sb
  let lon12s := (hd - lon12b) - lon12sb
  let lat1r := AngRound (LatFix O lat1i)
  let lat2r := AngRound (LatFix O lat2i)
  let swapp : ℚ := if |lat1r| < |lat2r| then -1 else 1
  let lonsign := if swapp < 0 then -lonsign0 else lonsign0
  let pl : ℚ × ℚ := if swapp < 0 then (lat2r, lat1r) else (lat1r, lat2r)
  let latsign : ℚ := if signbitQ pl.1 then 1 else -1
  { lat1 := pl.1 * latsign, lat2 := pl.2 * latsign,
    lon12 := lon12b, lon12s := lon12s, lam12 := lam12,
    slam12 := sc.1, clam12 := sc.2,
    lonsign := lonsign, latsign := latsign, swapp := swapp }

/-- Type of the canonical-frame inverse core as seen by the wrapper:
outmask, lat1, lat2, lon12, lon12s, lam12, slam12, clam12 to CoreOut. -/
def CoreFn : Type := ℕ → ℚ → ℚ → ℚ → ℚ → ℚ → ℚ → ℚ → CoreOut

/-- Full result record of geod_geninverse_int (azimuths still as
sine/cosine pairs). -/
structure InvOut where
  a12 : ℚ
  s12 : ℚ
  m12 : ℚ
  M12 : ℚ
  M21 : ℚ
  S12 : ℚ
  salp1 : ℚ
  calp1 : ℚ
  salp2 : ℚ
  calp2 : ℚ

/-- geod_geninverse_int as canonicalization, an arbitrary canonical-frame
core, and the inverse sign restoration (lines 1019-1047 of geodesic.c plus
the -0 conversions and the S12 sign factor). -/
def geninverseWrap (O : Prim) (core : CoreFn)
    (lat1 lon1 lat2 lon2 : ℚ) (outmask0 : ℕ) : InvOut :=
  let outmask := outmask0 &&& OUT_ALL
  let c := canonicalize O lat1 lon1 lat2 lon2
  let co := core outmask c.lat1 c.lat2 c.lon12 c.lon12s c.lam12 c.slam12 c.clam12
  let s12 := if outmask &&& GEOD_DISTANCE ≠ 0 then 0 + co.s12x else 0
  let m12 := if outmask &&& GEOD_REDUCEDLENGTH ≠ 0 then 0 + co.m12x else 0
  let S12 := if outmask &&& GEOD_AREA ≠ 0 then
      co.S12 * (c.swapp * c.lonsign * c.latsign) + 0
    else 0
  let sw : ℚ × ℚ × ℚ × ℚ :=
    if c.swapp < 0 then (co.salp2, co.calp2, co.salp1, co.calp1)
    else (co.salp1, co.calp1, co.salp2, co.calp2)
  let MM : ℚ × ℚ :=
    if c.swapp < 0 ∧ outmask &&& GEOD_GEODESICSCALE ≠ 0 then (co.M21, co.M12)
    else (co.M12, co.M21)
  { a12 := co.a12, s12 := s12, m12 := m12, M12 := MM.1, M21 := MM.2, S12 := S12,
    salp1 := sw.1 * (c.swapp * c.lonsign),
    calp1 := sw.2.1 * (c.swapp * c.latsign),
    salp2 := sw.2.2.1 * (c.swapp * c.lonsign),
    calp2 := sw.2.2.2 * (c.swapp * c.latsign) }

/-- geod_geninverse_int: the wrapper instantiated with the concrete core. -/
def geod_geninverse_int (O : Prim) (g : geod_geodesic)
    (lat1 lon1 lat2 lon2 : ℚ) (outmask : ℕ) : InvOut :=
  geninverseWrap O (geninverseCore O g) lat1 lon1 lat2 lon2 outmask

/-- Result record of geod_geninverse with azimuths in degrees. -/
structure GenInvOut where
  a12 : ℚ
  s12 : ℚ
  azi1 : ℚ
  azi2 : ℚ
  m12 : ℚ
  M12 : ℚ
  M21 : ℚ
  S12 : ℚ

/-- geod_geninverse: geod_geninverse_int followed by the conversion of the
azimuth sine/cosine pairs to degrees by atan2dx. -/
def geod_geninverse (O : Prim) (g : geod_geodesic)
    (lat1 lon1 lat2 lon2 : ℚ) (outmask : ℕ) : GenInvOut :=
  let r := geod_geninverse_int O g lat1 lon1 lat2 lon2 outmask
  { a12 := r.a12, s12 := r.s12,
    azi1 := atan2dx O r.salp1 r.calp1, azi2 := atan2dx O r.salp2 r.calp2,
    m12 := r.m12, M12 := r.M12, M21 := r.M21, S12 := r.S12 }

/-- transit(lon1, lon2): +1 or -1 when the longitude step crosses the prime
antimeridian east- or westwards, else 0. -/
def transit (lon1 lon2 : ℚ) : ℤ :=
  let lon12 := (AngDiff lon1 lon2).1
  let l1 := AngNormalize lon1
  let l2 := AngNormalize lon2
  if lon12 > 0 ∧ ((l1 < 0 ∧ l2 ≥ 0) ∨ (l1 > 0 ∧ l2 = 0)) then 1
  else if lon12 < 0 ∧ l1 ≥ 0 ∧ l2 < 0 then -1
  else 0

/-- transitdirect(lon1, lon2): parity of floor(lon2/360) - floor(lon1/360)
computed through remainder by 720. -/
def transitdirect (lon1 lon2 : ℚ) : ℤ :=
  let l1 := remainderQ lon1 (2 * td)
  let l2 := remainderQ lon2 (2 * td)
  ((if l2 ≥ 0 ∧ l2 < td then 0 else 1) : ℤ) -
    ((if l1 ≥ 0 ∧ l1 < td then 0 else 1) : ℤ)

/-- accini: a fresh compensated accumulator (value, residual). -/
def accini : ℚ × ℚ := (0, 0)

/-- accadd(s, y): add y into a compensated accumulator with two two-sums. -/
def accadd (s : ℚ × ℚ) (y : ℚ) : ℚ × ℚ :=
  let p1 := sumx y s.2
  let z := p1.1
  let u := p1.2
  let p2 := sumx z s.1
  let s0 := p2.1
  let s1 := p2.2
  if s0 = 0 then (u, s1) else (s0, s1 + u)

/-- accsum(s, y): the value the accumulator would have after adding y,
without updating it. -/
def accsum (s : ℚ × ℚ) (y : ℚ) : ℚ := (accadd s y).1

/-- accneg(s): negate an accumulator. -/
def accneg (s : ℚ × ℚ) : ℚ × ℚ := (-s.1, -s.2)

/-- accrem(s, y): reduce the accumulator value to [-y/2, y/2] by remainder,
then renormalize by adding 0. -/
def accrem (s : ℚ × ℚ) (y : ℚ) : ℚ × ℚ :=
  accadd (remainderQ s.1 y, s.2) 0

/-- areareduceA(area, area0, crossings, reverse, sign): the final area
reduction of geod_polygon_compute on a compensated accumulator: remainder by
area0, the half-sphere correction for odd crossing parity, the orientation
convention, and the mapping into [0, area0) or (-area0/2, area0/2]. -/
def areareduceA (area : ℚ × ℚ) (area0 : ℚ) (crossings : ℤ)
    (reverse sign : Bool) : ℚ :=
  let a1 := accrem area area0
  let a2 := if crossings % 2 ≠ 0 then
      accadd a1 ((if a1.1 < 0 then 1 else -1) * area0 / 2)
    else a1
  let a3 := if ¬reverse then accneg a2 else a2
  let a4 :=
    if sign then
      if a3.1 > area0 / 2 then accadd a3 (-area0)
      else if a3.1 ≤ -area0 / 2 then accadd a3 area0
      else a3
    else
      if a3.1 ≥ area0 then accadd a3 (-area0)
      else if a3.1 < 0 then accadd a3 area0
      else a3
  0 + a4.1

/-- areareduceB(area, area0, crossings, reverse, sign): the same reduction on
a plain double, used by the testpoint/testedge queries. -/
def areareduceB (area : ℚ) (area0 : ℚ) (crossings : ℤ)
    (reverse sign : Bool) : ℚ :=
  let a1 := remainderQ area area0
  let a2 := if crossings % 2 ≠ 0 then
      a1 + (if a1 < 0 then 1 else -1) * area0 / 2
    else a1
  let a3 := if ¬reverse then a2 * (-1) else a2
  let a4 :=
    if sign then
      if a3 > area0 / 2 then a3 - area0
      else if a3 ≤ -area0 / 2 then a3 + area0
      else a3
    else
      if a3 ≥ area0 then a3 - area0
      else if a3 < 0 then a3 + area0
      else a3
  0 + a4

/-- The polygon accumulator struct geod_polygon. -/
structure geod_polygon where
  lat : ℚ
  lon : ℚ
  lat0 : ℚ
  lon0 : ℚ
  P : ℚ × ℚ
  A : ℚ × ℚ
  num : ℕ
  crossings : ℤ
  polyline : Bool

/-- geod_polygon_init(polylinep): set the polyline flag and clear; the unset
vertex fields are NaN, modelled by the junk value O.nan. -/
def geod_polygon_init (O : Prim) (polylinep : Bool) : geod_polygon :=
  { lat := O.nan, lon := O.nan, lat0 := O.nan, lon0 := O.nan,
    P := accini, A := accini, num := 0, crossings := 0, polyline := polylinep }

/-- Type of the inverse-solver results consumed by the polygon routines: the
s12 and S12 outputs of geod_geninverse for the given endpoint pair.  The
polygon routines use the solver as a black box, so they are parameterized
over it; `polyInv` below is the faithful instantiation. -/
def InvFn : Type := ℚ → ℚ → ℚ → ℚ → ℚ × ℚ

/-- Type of the direct-solver results consumed by geod_polygon_addedge and
geod_polygon_testedge: the lat2, lon2, S12 outputs of geod_gendirect with
the GEOD_LONG_UNROLL flag. -/
def DirFn : Type := ℚ → ℚ → ℚ → ℚ → ℚ × ℚ × ℚ

/-- The faithful InvFn: geod_geninverse requesting distance and area. -/
def polyInv (O : Prim) (g : geod_geodesic) : InvFn := fun lat1 lon1 lat2 lon2 =>
  let r := geod_geninverse O g lat1 lon1 lat2 lon2 (GEOD_DISTANCE ||| GEOD_AREA)
  (r.s12, r.S12)

/-- geod_polygon_addpoint: record the first vertex, or inverse-solve from the
previous vertex and accumulate perimeter, area and crossing count. -/
def geod_polygon_addpoint (inv : InvFn) (p : geod_polygon)
    (lat lon : ℚ) : geod_polygon :=
  if p.num = 0 then
    { p with lat0 := lat, lon0 := lon, lat := lat, lon := lon, num := 1 }
  else
    let r := inv p.lat p.lon lat lon
    let P := accadd p.P r.1
    let A := if ¬p.polyline then accadd p.A r.2 else p.A
    let cr := if ¬p.polyline then p.crossings + transit p.lon lon else p.crossings
    { p with
      P := P
      A := A
      crossings := cr
      lat := lat
      lon := lon
      num := p.num + 1 }

/-- geod_polygon_addedge: direct-solve to the new vertex and accumulate; a
silent no-op when no vertex has been added yet (num = 0). -/
def geod_polygon_addedge (dir : DirFn) (p : geod_polygon)
    (azi s : ℚ) : geod_polygon :=
  if p.num ≠ 0 then
    let r := dir p.lat p.lon azi s
    let lat := r.1
    let lon := r.2.1
    let P := accadd p.P s
    let A := if ¬p.polyline then accadd p.A r.2.2 else p.A
    let cr := if ¬p.polyline then p.crossings + transitdirect p.lon lon
      else p.crossings
    { p with
      P := P
      A := A
      crossings := cr
      lat := lat
      lon := lon
      num := p.num + 1 }
  else p

/-- geod_polygon_compute: close the polygon back to the first vertex and
report (vertex count, area, perimeter); an output the C code leaves
unwritten (the area of a polyline, or of a polygon with fewer than 2
vertices in the polyline case) is reported as 0 here. -/
def geod_polygon_compute (O : Prim) (g : geod_geodesic) (inv : InvFn)
    (p : geod_polygon) (reverse sign : Bool) : ℕ × ℚ × ℚ :=
  if p.num < 2 then (p.num, 0, 0)
  else if p.polyline then (p.num, 0, p.P.1)
  else
    let r := inv p.lat p.lon p.lat0 p.lon0
    let P := accsum p.P r.1
    let t := accadd p.A r.2
    let A := areareduceA t (4 * O.pi * g.c2)
      (p.crossings + transit p.lon p.lon0) reverse sign
    (p.num, A, P)

/-- geod_polygon_testpoint: the result that adding the point and then
computing would give, computed on local copies; the first component of the
result is the accumulator as left by the call (the C function takes a const
pointer and never writes through it). -/
def geod_polygon_testpoint (O : Prim) (g : geod_geodesic) (inv : InvFn)
    (p : geod_polygon) (lat lon : ℚ) (reverse sign : Bool) :
    geod_polygon × ℕ × ℚ × ℚ :=
  let num := p.num + 1
  if num = 1 then (p, num, 0, 0)
  else
    let tempsum0 : ℚ := if p.polyline then 0 else p.A.1
    let r0 := inv p.lat p.lon lat lon
    let per1 := p.P.1 + r0.1
    let ts1 := if ¬p.polyline then tempsum0 + r0.2 else tempsum0
    let cr1 := if ¬p.polyline then p.crossings + transit p.lon lon
      else p.crossings
    if p.polyline then (p, num, 0, per1)
    else
      let r1 := inv lat lon p.lat0 p.lon0
      let per2 := per1 + r1.1
      let ts2 := ts1 + r1.2
      let cr2 := cr1 + transit lon p.lon0
      let A := areareduceB ts2 (4 * O.pi * g.c2) cr2 reverse sign
      (p, num, A, per2)

/-- geod_polygon_testedge: the result that adding the edge and then computing
would give; on an empty accumulator it returns 0 with NaN outputs.  The
first component is the accumulator as left by the call (const pointer). -/
def geod_polygon_testedge (O : Prim) (g : geod_geodesic) (inv : InvFn)
    (dir : DirFn) (p : geod_polygon) (azi s : ℚ) (reverse sign : Bool) :
    geod_polygon × ℕ × ℚ × ℚ :=
  let num := p.num + 1
  if num = 1 then (p, 0, O.nan, O.nan)
  else
    let per0 := p.P.1 + s
    if p.polyline then (p, num, 0, per0)
    else
      let rd := dir p.lat p.lon azi s
      let lat := rd.1
      let lon := rd.2.1
      let ts1 := p.A.1 + rd.2.2
      let cr1 := p.crossings + transitdirect p.lon lon
      let ri := inv lat lon p.lat0 p.lon0
      let per1 := per0 + ri.1
      let ts2 := ts1 + ri.2
      let cr2 := cr1 + transit lon p.lon0
      let A := areareduceB ts2 (4 * O.pi * g.c2) cr2 reverse sign
      (p, num, A, per1)

/-- The NaN-aware double model: `none` is NaN, `some q` a finite double with
exact-rational value.  Arithmetic is strict (NaN-propagating); comparisons
are IEEE (false on NaN, except `!=` which is true); `fmax` drops a NaN
argument as C fmax does.  Infinities are outside the model. -/
abbrev OptD : Type := Option ℚ

instance : DecidableEq OptD := inferInstanceAs (DecidableEq (Option ℚ))

/-- Inject a finite rational into OptD. -/
def dlit (q : ℚ) : OptD := some q

/-- Strict unary lift to OptD. -/
def dmap (f : ℚ → ℚ) : OptD → OptD
  | some x => some (f x)
  | none => none

/-- Strict binary lift to OptD. -/
def dmap2 (f : ℚ → ℚ → ℚ) : OptD → OptD → OptD
  | some x, some y => some (f x y)
  | _, _ => none

instance : Add OptD := ⟨dmap2 (fun a b => a + b)⟩

instance : Sub OptD := ⟨dmap2 (fun a b => a - b)⟩

instance : Mul OptD := ⟨dmap2 (fun a b => a * b)⟩

instance : Div OptD := ⟨dmap2 (fun a b => a / b)⟩

instance : Neg OptD := ⟨dmap (fun a => -a)⟩

instance (n : ℕ) : OfNat OptD n := ⟨some (OfNat.ofNat n)⟩

/-- IEEE less-than on OptD: false when either side is NaN. -/
def dlt (a b : OptD) : Bool :=
  match a, b with
  | some x, some y => decide (x < y)
  | _, _ => false

/-- IEEE less-or-equal on OptD: false when either side is NaN. -/
def dle (a b : OptD) : Bool :=
  match a, b with
  | some x, some y => decide (x ≤ y)
  | _, _ => false

/-- IEEE equality on OptD: false when either side is NaN. -/
def deqb (a b : OptD) : Bool :=
  match a, b with
  | some x, some y => decide (x = y)
  | _, _ => false

/-- IEEE inequality on OptD: true when either side is NaN. -/
def dneq (a b : OptD) : Bool := !deqb a b

/-- fabs on OptD. -/
def dabs : OptD → OptD := dmap (fun a => |a|)

/-- C fmax on OptD: a NaN argument is dropped in favour of the other. -/
def dfmax (a b : OptD) : OptD :=
  match a, b with
  | some x, some y => some (max x y)
  | some x, none => some x
  | none, y => y

/-- C copysign on OptD: magnitude of v, sign of s; the sign bit of a NaN
second argument is unspecified in C, modelled here as positive (theorem
conclusions below do not depend on this choice because the magnitude is NaN
on every path where it arises). -/
def dcopysign (v s : OptD) : OptD :=
  match s with
  | some q => if q < 0 then -(dabs v) else dabs v
  | none => dabs v

/-- C signbit on OptD; the sign bit of NaN is unspecified in C, modelled as
clear (conclusions below are insensitive to the choice). -/
def dsignbit (x : OptD) : Bool :=
  match x with
  | some q => decide (q < 0)
  | none => false

/-- sq on OptD. -/
def dsq (x : OptD) : OptD := x * x

/-- libm sin lifted strictly to OptD. -/
def dsin (O : Prim) : OptD → OptD := dmap O.sin

/-- libm cos lifted strictly to OptD. -/
def dcos (O : Prim) : OptD → OptD := dmap O.cos

/-- libm atan2 lifted strictly to OptD. -/
def datan2 (O : Prim) : OptD → OptD → OptD := dmap2 O.atan2

/-- libm sqrt lifted strictly to OptD. -/
def dsqrt (O : Prim) : OptD → OptD := dmap O.sqrt

/-- libm hypot lifted strictly to OptD (hypot of NaN and an infinity is the
only non-strict case in C, and infinities are outside the model). -/
def dhypot (O : Prim) : OptD → OptD → OptD := dmap2 O.hypot

/-- remainder by an exact constant on OptD. -/
def dremainder (x : OptD) (y : ℚ) : OptD := dmap (fun v => remainderQ v y) x

/-- remquo on OptD; the quotient bits for a NaN input are unspecified in C
and modelled as 0 (every use maps all quadrants of a NaN to NaN). -/
def dremquo (x : OptD) (y : ℚ) : OptD × ℤ :=
  match x with
  | some v => (some (remquoQ v y).1, (remquoQ v y).2)
  | none => (none, 0)

/-- AngNormalize on OptD. -/
def AngNormalizeD (x : OptD) : OptD :=
  let y := dremainder x td
  if deqb (dabs y) (some hd) then dcopysign (some hd) x else y

/-- AngRound on OptD. -/
def AngRoundD (x : OptD) : OptD :=
  let z : OptD := some (1 / 16)
  let y := dabs x
  let w := z - y
  let y2 := if dlt 0 w then z - w else y
  dcopysign y2 x

/-- LatFix on OptD: |x| > 90 becomes NaN; a NaN input stays NaN because the
comparison is false on NaN. -/
def LatFixD (x : OptD) : OptD :=
  if dlt (some qd) (dabs x) then none else x

/-- sincosdx on OptD. -/
def sincosdxD (O : Prim) (x : OptD) : OptD × OptD :=
  let rq := dremquo x qd
  let r := rq.1 * dlit (degree O)
  let s := dsin O r
  let c := dcos O r
  let q := rq.2.emod 4
  let sc : OptD × OptD :=
    if q = 0 then (s, c)
    else if q = 1 then (c, -s)
    else if q = 2 then (-s, -c)
    else (-c, s)
  let cosx := sc.2 + 0
  let sinx := if deqb sc.1 0 then dcopysign sc.1 x else sc.1
  (sinx, cosx)

/-- atan2dx on OptD. -/
def atan2dxD (O : Prim) (y x : OptD) : OptD :=
  let p1 : OptD × OptD × ℤ := if dlt (dabs x) (dabs y) then (y, x, 2) else (x, y, 0)
  let x1 := p1.1
  let y1 := p1.2.1
  let q1 := p1.2.2
  let p2 : OptD × ℤ := if dsignbit x1 then (-x1, q1 + 1) else (x1, q1)
  let x2 := p2.1
  let q2 := p2.2
  let ang := datan2 O y1 x2 / dlit (degree O)
  if q2 = 1 then dcopysign (dlit hd) y1 - ang
  else if q2 = 2 then dlit qd - ang
  else if q2 = 3 then -(dlit qd) + ang
  else ang

/-- norm2 on OptD. -/
def norm2D (O : Prim) (sinx cosx : OptD) : OptD × OptD :=
  let r := dhypot O sinx cosx
  (sinx / r, cosx / r)

/-- polyvalx on OptD. -/
def polyvalxD (N : ℤ) (p : List OptD) (x : OptD) : OptD :=
  if N < 0 then 0
  else (List.range N.toNat).foldl (fun y i => y * x + p.getD (i + 1) 0) (p.getD 0 0)

/-- Clenshaw loop on OptD. -/
def clenshawLoopD (ar : OptD) (c : List OptD) : ℕ → ℕ → OptD → OptD → OptD × OptD
  | 0, _, y0, y1 => (y0, y1)
  | m + 1, k, y0, y1 =>
      let y1n := ar * y0 - y1 + c.getD (k - 1) 0
      let y0n := ar * y1n - y0 + c.getD (k - 2) 0
      clenshawLoopD ar c m (k - 2) y0n y1n

/-- SinCosSeries on OptD. -/
def SinCosSeriesD (sinp : Bool) (sinx cosx : OptD) (c : List OptD) (n : ℕ) : OptD :=
  let k0 := n + (if sinp then 1 else 0)
  let ar := 2 * (cosx - sinx) * (cosx + sinx)
  let start : OptD × ℕ := if n % 2 = 1 then (c.getD (k0 - 1) 0, k0 - 1) else (0, k0)
  let y := clenshawLoopD ar c (n / 2) start.2 start.1 0
  if sinp then 2 * sinx * cosx * y.1 else cosx * (y.1 - y.2)

/-- A1m1f on OptD. -/
def A1m1fD (eps : OptD) : OptD :=
  let coeff : List OptD := [1, 4, 64, 0, 256]
  let m : ℕ := 6 / 2
  let t := polyvalxD (m : ℤ) coeff (dsq eps) / coeff.getD (m + 1) 0
  (t + eps) / (1 - eps)

/-- A2m1f on OptD. -/
def A2m1fD (eps : OptD) : OptD :=
  let coeff : List OptD := [-11, -28, -192, 0, 256]
  let m : ℕ := 6 / 2
  let t := polyvalxD (m : ℤ) coeff (dsq eps) / coeff.getD (m + 1) 0
  (t - eps) / (1 + eps)

/-- The C1f/C1pf/C2f generator loop on OptD; see fourierStep. -/
def fourierStepD (coeff : List OptD) (eps2 eps : OptD) : List ℕ → OptD → List OptD
  | [], _ => []
  | m :: ms, d =>
      (d * polyvalxD (m : ℤ) coeff eps2 / coeff.getD (m + 1) 0) ::
        fourierStepD (coeff.drop (m + 2)) eps2 eps ms (d * eps)

/-- C1f on OptD. -/
def C1fD (eps : OptD) : List OptD :=
  let coeff : List OptD :=
    [-1, 6, -16, 32,
     -9, 64, -128, 2048,
     9, -16, 768,
     3, -5, 512,
     -7, 1280,
     -7, 2048]
  0 :: fourierStepD coeff (dsq eps) eps [2, 2, 1, 1, 0, 0] eps

/-- C1pf on OptD. -/
def C1pfD (eps : OptD) : List OptD :=
  let coeff : List OptD :=
    [205, -432, 768, 1536,
     4005, -4736, 3840, 12288,
     -225, 116, 384,
     -7173, 2695, 7680,
     3467, 7680,
     38081, 61440]
  0 :: fourierStepD coeff (dsq eps) eps [2, 2, 1, 1, 0, 0] eps

/-- C2f on OptD. -/
def C2fD (eps : OptD) : List OptD :=
  let coeff : List OptD :=
    [1, 2, 16, 32,
     35, 64, 384, 2048,
     15, 80, 768,
     7, 35, 512,
     63, 1280,
     77, 2048]
  0 :: fourierStepD coeff (dsq eps) eps [2, 2, 1, 1, 0, 0] eps

/-- A3f on OptD (table entries from the exact model are finite). -/
def A3fD (g : geod_geodesic) (eps : OptD) : OptD :=
  polyvalxD (6 - 1 : ℤ) (g.A3x.map some) eps

/-- C3f on OptD. -/
def C3fD (g : geod_geodesic) (eps : OptD) : List OptD :=
  let tab := g.C3x.map some
  let m1 := eps
  let c1 := m1 * polyvalxD 4 (tab.drop 0) eps
  let m2 := m1 * eps
  let c2 := m2 * polyvalxD 3 (tab.drop 5) eps
  let m3 := m2 * eps
  let c3 := m3 * polyvalxD 2 (tab.drop 9) eps
  let m4 := m3 * eps
  let c4 := m4 * polyvalxD 1 (tab.drop 12) eps
  let m5 := m4 * eps
  let c5 := m5 * polyvalxD 0 (tab.drop 14) eps
  [0, c1, c2, c3, c4, c5, 0]

/-- C4f on OptD. -/
def C4fD (g : geod_geodesic) (eps : OptD) : List OptD :=
  let tab := g.C4x.map some
  let c0 := 1 * polyvalxD 5 (tab.drop 0) eps
  let m1 := eps
  let c1 := m1 * polyvalxD 4 (tab.drop 6) eps
  let m2 := m1 * eps
  let c2 := m2 * polyvalxD 3 (tab.drop 11) eps
  let m3 := m2 * eps
  let c3 := m3 * polyvalxD 2 (tab.drop 15) eps
  let m4 := m3 * eps
  let c4 := m4 * polyvalxD 1 (tab.drop 18) eps
  let m5 := m4 * eps
  let c5 := m5 * polyvalxD 0 (tab.drop 20) eps
  [c0, c1, c2, c3, c4, c5, 0]

/-- The geodesic-line struct geod_geodesicline; scalar constants copied from
the (always finite) ellipsoid model stay exact rationals, per-line state is
OptD.  A field that geod_lineinit_int leaves uninitialized (its capability
not requested) is modelled as `none` and is never read on such lines. -/
structure geod_geodesicline where
  lat1 : OptD
  lon1 : OptD
  azi1 : OptD
  salp1 : OptD
  calp1 : OptD
  dn1 : OptD
  salp0 : OptD
  calp0 : OptD
  ssig1 : OptD
  csig1 : OptD
  somg1 : OptD
  comg1 : OptD
  k2 : OptD
  A1m1 : OptD
  B11 : OptD
  stau1 : OptD
  ctau1 : OptD
  A2m1 : OptD
  B21 : OptD
  A3c : OptD
  B31 : OptD
  A4 : OptD
  B41 : OptD
  a13 : OptD
  s13 : OptD
  C1a : List OptD
  C1pa : List OptD
  C2a : List OptD
  C3a : List OptD
  C4a : List OptD
  a : ℚ
  f : ℚ
  b : ℚ
  c2 : ℚ
  f1 : ℚ
  caps : ℕ

/-- geod_lineinit_int: build a geodesic line from a starting point, a
pre-split azimuth sine/cosine, and a capability mask (0 selects the standard
direct-problem capabilities). -/
def geod_lineinit_int (O : Prim) (g : geod_geodesic)
    (lat1 lon1 azi1 salp1 calp1 : OptD) (caps0 : ℕ) : geod_geodesicline :=
  let caps := (if caps0 ≠ 0 then caps0 else GEOD_DISTANCE_IN ||| GEOD_LONGITUDE) |||
    GEOD_LATITUDE ||| GEOD_AZIMUTH ||| GEOD_LONG_UNROLL
  let lat1f := LatFixD lat1
  let sc := sincosdxD O (AngRoundD lat1f)
  let sbet1a := sc.1 * dlit g.f1
  let n1 := norm2D O sbet1a sc.2
  let sbet1 := n1.1
  let cbet1 := dfmax (some (tiny O)) n1.2
  let dn1 := dsqrt O (1 + dlit g.ep2 * dsq sbet1)
  let salp0 := salp1 * cbet1
  let calp0 := dhypot O calp1 (salp1 * sbet1)
  let ssig1 := sbet1
  let somg1 := salp0 * sbet1
  let csig1c := if dneq sbet1 0 || dneq calp1 0 then cbet1 * calp1 else 1
  let nn := norm2D O ssig1 csig1c
  let ssig1n := nn.1
  let csig1n := nn.2
  let k2 := dsq calp0 * dlit g.ep2
  let eps := k2 / (2 * (1 + dsqrt O (1 + k2)) + k2)
  let c1 : OptD × List OptD × OptD × OptD × OptD :=
    if caps &&& CAP_C1 ≠ 0 then
      let A1m1 := A1m1fD eps
      let C1a := C1fD eps
      let B11 := SinCosSeriesD true ssig1n csig1n C1a 6
      let s := dsin O B11
      let c := dcos O B11
      (A1m1, C1a, B11, ssig1n * c + csig1n * s, csig1n * c - ssig1n * s)
    else (none, List.replicate 7 none, none, none, none)
  let C1pa := if caps &&& CAP_C1p ≠ 0 then C1pfD eps else List.replicate 7 none
  let c2p : OptD × List OptD × OptD :=
    if caps &&& CAP_C2 ≠ 0 then
      let A2m1 := A2m1fD eps
      let C2a := C2fD eps
      (A2m1, C2a, SinCosSeriesD true ssig1n csig1n C2a 6)
    else (none, List.replicate 7 none, none)
  let c3p : List OptD × OptD × OptD :=
    if caps &&& CAP_C3 ≠ 0 then
      let C3a := C3fD g eps
      (C3a, -(dlit g.f) * salp0 * A3fD g eps,
        SinCosSeriesD true ssig1n csig1n C3a (6 - 1))
    else (List.replicate 7 none, none, none)
  let c4p : List OptD × OptD × OptD :=
    if caps &&& CAP_C4 ≠ 0 then
      let C4a := C4fD g eps
      (C4a, dlit (sq g.a) * calp0 * salp0 * dlit g.e2,
        SinCosSeriesD false ssig1n csig1n C4a 6)
    else (List.replicate 7 none, none, none)
  { lat1 := lat1f, lon1 := lon1, azi1 := azi1, salp1 := salp1, calp1 := calp1,
    dn1 := dn1, salp0 := salp0, calp0 := calp0,
    ssig1 := ssig1n, csig1 := csig1n, somg1 := somg1, comg1 := csig1c,
    k2 := k2, A1m1 := c1.1, B11 := c1.2.2.1,
    stau1 := c1.2.2.2.1, ctau1 := c1.2.2.2.2,
    A2m1 := c2p.1, B21 := c2p.2.2,
    A3c := c3p.2.1, B31 := c3p.2.2,
    A4 := c4p.2.1, B41 := c4p.2.2,
    a13 := none, s13 := none,
    C1a := c1.2.1, C1pa := C1pa, C2a := c2p.2.1, C3a := c3p.1, C4a := c4p.1,
    a := g.a, f := g.f, b := g.b, c2 := g.c2, f1 := g.f1, caps := caps }

/-- geod_lineinit: normalize the azimuth, split it by sincosdx after
AngRound, and delegate to geod_lineinit_int. -/
def geod_lineinit (O : Prim) (g : geod_geodesic)
    (lat1 lon1 azi1 : OptD) (caps : ℕ) : geod_geodesicline :=
  let azi1n := AngNormalizeD azi1
  let sc := sincosdxD O (AngRoundD azi1n)
  geod_lineinit_int O g lat1 lon1 azi1n sc.1 sc.2 caps

/-- Which output pointers the caller of geod_genposition passed as non-null. -/
structure PosReq where
  lat2 : Bool
  lon2 : Bool
  azi2 : Bool
  s12 : Bool
  m12 : Bool
  M12 : Bool
  M21 : Bool
  S12 : Bool

/-- The caller-side output variables of geod_genposition; the call returns
this record with exactly the requested-and-capable fields overwritten. -/
structure PosVals where
  lat2 : OptD
  lon2 : OptD
  azi2 : OptD
  s12 : OptD
  m12 : OptD
  M12 : OptD
  M21 : OptD
  S12 : OptD

/-- The output-request mask geod_genposition/geod_gendirect derive from the
non-null output pointers. -/
def posOutmask (req : PosReq) : ℕ :=
  (if req.lat2 then GEOD_LATITUDE else GEOD_NONE) |||
  (if req.lon2 then GEOD_LONGITUDE else GEOD_NONE) |||
  (if req.azi2 then GEOD_AZIMUTH else GEOD_NONE) |||
  (if req.s12 then GEOD_DISTANCE else GEOD_NONE) |||
  (if req.m12 then GEOD_REDUCEDLENGTH else GEOD_NONE) |||
  (if req.M12 || req.M21 then GEOD_GEODESICSCALE else GEOD_NONE) |||
  (if req.S12 then GEOD_AREA else GEOD_NONE)

/-- geod_genposition: position query on a geodesic line, in arc mode or
distance mode; returns the arc length (the C return value) together with the
caller's output variables, of which only the requested-and-capable fields
are written.  A distance-mode query on a line lacking GEOD_DISTANCE_IN
returns NaN immediately, leaving every output variable untouched. -/
def geod_genposition (O : Prim) (l : geod_geodesicline) (flags : ℕ)
    (s12_a12 : OptD) (req : PosReq) (prev : PosVals) : OptD × PosVals :=
  let outmask := posOutmask req &&& l.caps &&& OUT_ALL
  if ¬(flags &&& GEOD_ARCMODE ≠ 0 ∨
      (l.caps &&& (GEOD_DISTANCE_IN &&& OUT_ALL)) ≠ 0) then
    (none, prev)
  else
    let arc := flags &&& GEOD_ARCMODE ≠ 0
    let tri : OptD × OptD × OptD × OptD :=
      if arc then
        let sig12 := s12_a12 * dlit (degree O)
        let sc := sincosdxD O s12_a12
        (sig12, sc.1, sc.2, 0)
      else
        let tau12 := s12_a12 / (dlit l.b * (1 + l.A1m1))
        let s := dsin O tau12
        let c := dcos O tau12
        let B12 := -(SinCosSeriesD true (l.stau1 * c + l.ctau1 * s)
          (l.ctau1 * c - l.stau1 * s) l.C1pa 6)
        let sig12a := tau12 - (B12 - l.B11)
        let ssig12a := dsin O sig12a
        let csig12a := dcos O sig12a
        if |l.f| > 1 / 100 then
          let ssig2 := l.ssig1 * csig12a + l.csig1 * ssig12a
          let csig2 := l.csig1 * csig12a - l.ssig1 * ssig12a
          let B12b := SinCosSeriesD true ssig2 csig2 l.C1a 6
          let serr := (1 + l.A1m1) * (sig12a + (B12b - l.B11)) -
            s12_a12 / dlit l.b
          let sig12b := sig12a - serr / dsqrt O (1 + l.k2 * dsq ssig2)
          (sig12b, dsin O sig12b, dcos O sig12b, B12b)
        else (sig12a, ssig12a, csig12a, B12)
    let sig12 := tri.1
    let ssig12 := tri.2.1
    let csig12 := tri.2.2.1
    let B12p := tri.2.2.2
    let ssig2 := l.ssig1 * csig12 + l.csig1 * ssig12
    let csig2a := l.csig1 * csig12 - l.ssig1 * ssig12
    let dn2 := dsqrt O (1 + l.k2 * dsq ssig2)
    let BA : OptD × OptD :=
      if outmask &&& (GEOD_DISTANCE ||| GEOD_REDUCEDLENGTH ||| GEOD_GEODESICSCALE) ≠ 0 then
        let B12c := if arc ∨ |l.f| > 1 / 100 then
            SinCosSeriesD true ssig2 csig2a l.C1a 6
          else B12p
        (B12c, (1 + l.A1m1) * (B12c - l.B11))
      else (B12p, 0)
    let AB1 := BA.2
    let sbet2 := l.calp0 * ssig2
    let cbet2a := dhypot O l.salp0 (l.calp0 * csig2a)
    let bfix : OptD × OptD :=
      if deqb cbet2a 0 then (some (tiny O), some (tiny O)) else (cbet2a, csig2a)
    let cbet2 := bfix.1
    let csig2 := bfix.2
    let salp2 := l.salp0
    let calp2 := l.calp0 * csig2
    let s12v : OptD :=
      if outmask &&& GEOD_DISTANCE ≠ 0 then
        if arc then dlit l.b * ((1 + l.A1m1) * sig12 + AB1) else s12_a12
      else 0
    let lon2v : OptD :=
      if outmask &&& GEOD_LONGITUDE ≠ 0 then
        let E := dcopysign 1 l.salp0
        let somg2 := l.salp0 * ssig2
        let comg2 := csig2
        let omg12 :=
          if flags &&& GEOD_LONG_UNROLL ≠ 0 then
            E * (sig12 - (datan2 O ssig2 csig2 - datan2 O l.ssig1 l.csig1) +
              (datan2 O (E * somg2) comg2 - datan2 O (E * l.somg1) l.comg1))
          else
            datan2 O (somg2 * l.comg1 - comg2 * l.somg1)
              (comg2 * l.comg1 + somg2 * l.somg1)
        let lam12 := omg12 + l.A3c *
          (sig12 + (SinCosSeriesD true ssig2 csig2 l.C3a (6 - 1) - l.B31))
        let lon12 := lam12 / dlit (degree O)
        if flags &&& GEOD_LONG_UNROLL ≠ 0 then l.lon1 + lon12
        else AngNormalizeD (AngNormalizeD l.lon1 + AngNormalizeD lon12)
      else 0
    let lat2v : OptD :=
      if outmask &&& GEOD_LATITUDE ≠ 0 then atan2dxD O sbet2 (dlit l.f1 * cbet2)
      else 0
    let azi2v : OptD :=
      if outmask &&& GEOD_AZIMUTH ≠ 0 then atan2dxD O salp2 calp2 else 0
    let mm : OptD × OptD × OptD :=
      if outmask &&& (GEOD_REDUCEDLENGTH ||| GEOD_GEODESICSCALE) ≠ 0 then
        let B22 := SinCosSeriesD true ssig2 csig2 l.C2a 6
        let AB2 := (1 + l.A2m1) * (B22 - l.B21)
        let J12 := (l.A1m1 - l.A2m1) * sig12 + (AB1 - AB2)
        let m12a :=
          if outmask &&& GEOD_REDUCEDLENGTH ≠ 0 then
            dlit l.b * ((dn2 * (l.csig1 * ssig2) - l.dn1 * (l.ssig1 * csig2)) -
              l.csig1 * csig2 * J12)
          else 0
        if outmask &&& GEOD_GEODESICSCALE ≠ 0 then
          let t := l.k2 * (ssig2 - l.ssig1) * (ssig2 + l.ssig1) / (l.dn1 + dn2)
          (m12a, csig12 + (t * ssig2 - csig2 * J12) * l.ssig1 / l.dn1,
            csig12 - (t * l.ssig1 - l.csig1 * J12) * ssig2 / dn2)
        else (m12a, 0, 0)
      else (0, 0, 0)
    let S12v : OptD :=
      if outmask &&& GEOD_AREA ≠ 0 then
        let B42 := SinCosSeriesD false ssig2 csig2 l.C4a 6
        let ap : OptD × OptD :=
          if deqb l.calp0 0 || deqb l.salp0 0 then
            (salp2 * l.calp1 - calp2 * l.salp1, calp2 * l.calp1 + salp2 * l.salp1)
          else
            (l.calp0 * l.salp0 *
              (if dle csig12 0 then l.csig1 * (1 - csig12) + ssig12 * l.ssig1
               else ssig12 * (l.csig1 * ssig12 / (1 + csig12) + l.ssig1)),
             dsq l.salp0 + dsq l.calp0 * l.csig1 * csig2)
        dlit l.c2 * datan2 O ap.1 ap.2 + l.A4 * (B42 - l.B41)
      else 0
    let out : PosVals := {
      lat2 := if outmask &&& GEOD_LATITUDE ≠ 0 then lat2v else prev.lat2
      lon2 := if outmask &&& GEOD_LONGITUDE ≠ 0 then lon2v else prev.lon2
      azi2 := if outmask &&& GEOD_AZIMUTH ≠ 0 then azi2v else prev.azi2
      s12 := if outmask &&& GEOD_DISTANCE ≠ 0 then s12v else prev.s12
      m12 := if outmask &&& GEOD_REDUCEDLENGTH ≠ 0 then mm.1 else prev.m12
      M12 := if outmask &&& GEOD_GEODESICSCALE ≠ 0 ∧ req.M12 then mm.2.1 else prev.M12
      M21 := if outmask &&& GEOD_GEODESICSCALE ≠ 0 ∧ req.M21 then mm.2.2 else prev.M21
      S12 := if outmask &&& GEOD_AREA ≠ 0 then S12v else prev.S12 }
    (if arc then s12_a12 else sig12 / dlit (degree O), out)

/-- geod_gendirect: build the line (supplying GEOD_DISTANCE_IN automatically
in distance mode) and query the position. -/
def geod_gendirect (O : Prim) (g : geod_geodesic)
    (lat1 lon1 azi1 : OptD) (flags : ℕ) (s12_a12 : OptD)
    (req : PosReq) (prev : PosVals) : OptD × PosVals :=
  let outmask := posOutmask req
  let l := geod_lineinit O g lat1 lon1 azi1
    (outmask ||| (if flags &&& GEOD_ARCMODE ≠ 0 then GEOD_NONE else GEOD_DISTANCE_IN))
  geod_genposition O l flags s12_a12 req prev

/-- The request record of geod_direct: lat2, lon2, azi2 only. -/
def directReq : PosReq :=
  { lat2 := true, lon2 := true, azi2 := true, s12 := false,
    m12 := false, M12 := false, M21 := false, S12 := false }

/-- geod_direct: the plain direct problem, writing lat2, lon2, azi2. -/
def geod_direct (O : Prim) (g : geod_geodesic)
    (lat1 lon1 azi1 s12 : OptD) (prev : PosVals) : PosVals :=
  (geod_gendirect O g lat1 lon1 azi1 GEOD_NOFLAGS s12 directReq prev).2

/-- A concrete libm oracle used by witnesses and counterexamples.  It
satisfies the exactness facts the theorems assume (sin 0 = 0, cos 0 = 1,
hypot 0 1 = 1, atan2 0 1 = 0, a nonnegative atan2 range, nonnegative hypot,
positive pi); its junk nan constant is 99. -/
def primX : Prim :=
  { sin := fun x => if x = 0 then 0 else 1
    cos := fun x => if x = 0 then 1 else 0
    atan2 := fun _ _ => 0
    sqrt := fun _ => 1
    hypot := fun x y => |x| + |y|
    cbrt := fun _ => 0
    atanh := fun _ => 0
    atan := fun _ => 0
    pi := 3
    nan := 99 }

/-- A concrete ellipsoid model (a = 1, f = 0) for witnesses. -/
def gX : geod_geodesic := geod_init primX 1 0

/-- A concrete inverse-solver stand-in for polygon witnesses. -/
def invX : InvFn := fun _ _ _ _ => (1, 2)

/-- A concrete direct-solver stand-in for polygon witnesses. -/
def dirX : DirFn := fun _ _ _ _ => (3, 4, 5)

/-- A concrete polygon state with two vertices for witnesses. -/
def polyX : geod_polygon :=
  { lat := 0, lon := 3, lat0 := 1, lon0 := 1, P := (7, 0), A := (5, 0),
    num := 2, crossings := 1, polyline := false }

/-- A concrete caller-variable record for position-query witnesses. -/
def prevX : PosVals :=
  { lat2 := some 0, lon2 := some 0, azi2 := some 0, s12 := some 0,
    m12 := some 0, M12 := some 0, M21 := some 0, S12 := some 0 }

/-- A concrete Newton-loop state for witnesses. -/
def stW : NSt :=
  { salp1 := 1, calp1 := 0, salp1a := 0, calp1a := 1, salp1b := 0, calp1b := -1,
    tripn := false, tripb := false, salp2 := 0, calp2 := 0, sig12 := 0,
    ssig1 := 0, csig1 := 0, ssig2 := 0, csig2 := 0, eps := 0, domg12 := 0 }

/-- In exact arithmetic the two-sum is the exact sum with a zero error term. -/
theorem sumx_eq (u v : ℚ) : sumx u v = (u + v, 0) := by
  unfold sumx
  rcases eq_or_ne (u + v) 0 with h | h
  · simp [h]
  · simp only [h, ne_eq, not_false_eq_true, if_true]
    have e : 0 - (u + v - v - u + (u + v - (u + v - v) - v)) = 0 := by ring
    rw [e]

/-- In exact arithmetic AngRound is the identity. -/
theorem AngRound_eq (x : ℚ) : AngRound x = x := by
  unfold AngRound copysignQ
  have h1 : (1 : ℚ) / 16 - (1 / 16 - |x|) = |x| := by ring
  rcases lt_or_le x 0 with hx | hx
  · simp only [if_pos hx]
    split_ifs with hw
    · rw [h1, abs_abs, abs_of_nonpos hx.le]; ring
    · rw [abs_abs, abs_of_nonpos hx.le]; ring
  · simp only [if_neg (not_lt.mpr hx)]
    split_ifs with hw
    · rw [h1, abs_abs, abs_of_nonneg hx]
    · rw [abs_abs, abs_of_nonneg hx]

/-- LatFix is the identity on in-range latitudes. -/
theorem LatFix_eq (O : Prim) {x : ℚ} (h : |x| ≤ qd) : LatFix O x = x := by
  unfold LatFix
  rw [if_neg (not_lt.mpr h)]

/-- Defining equation of roundEven with the local lets expanded. -/
theorem roundEven_spec (z : ℚ) :
    roundEven z = if z - (⌊z⌋ : ℚ) < 1 / 2 then ⌊z⌋
      else if 1 / 2 < z - (⌊z⌋ : ℚ) then ⌊z⌋ + 1
      else if 2 ∣ ⌊z⌋ then ⌊z⌋ else ⌊z⌋ + 1 := rfl

/-- The round-to-nearest-even integer is within 1/2 of its argument. -/
theorem roundEven_close (z : ℚ) : |z - (roundEven z : ℚ)| ≤ 1 / 2 := by
  rw [roundEven_spec]
  have h0 : (⌊z⌋ : ℚ) ≤ z := Int.floor_le z
  have h1 : z < ⌊z⌋ + 1 := Int.lt_floor_add_one z
  split_ifs with hlt hgt hdvd
  · rw [abs_le]; constructor <;> linarith
  · push_cast
    rw [abs_le]; constructor <;> linarith
  · have hge := le_of_not_lt hlt
    have hle := le_of_not_lt hgt
    rw [abs_le]; constructor <;> linarith
  · have hge := le_of_not_lt hlt
    have hle := le_of_not_lt hgt
    push_cast
    rw [abs_le]; constructor <;> linarith

/-- Parity bookkeeping for the tie case of roundEven under negation. -/
theorem roundEven_negAux (n : ℤ) (r : ℚ) (hp : 0 < r) (hl : r < 1) :
    (if 1 - r < 1 / 2 then -n - 1
     else if 1 / 2 < 1 - r then -n - 1 + 1
     else if 2 ∣ (-n - 1) then -n - 1 else -n - 1 + 1)
    = -(if r < 1 / 2 then n
        else if 1 / 2 < r then n + 1
        else if 2 ∣ n then n else n + 1) := by
  rcases lt_trichotomy r (1 / 2) with hc | hc | hc
  · have e1 : ¬(1 - r < 1 / 2) := by linarith
    have e2 : (1 : ℚ) / 2 < 1 - r := by linarith
    rw [if_neg e1, if_pos e2, if_pos hc]
    ring
  · subst hc
    have e1 : ¬((1 : ℚ) - 1 / 2 < 1 / 2) := by norm_num
    have e2 : ¬((1 : ℚ) / 2 < 1 - 1 / 2) := by norm_num
    have e3 : ¬((1 : ℚ) / 2 < 1 / 2) := by norm_num
    rw [if_neg e1, if_neg e2, if_neg e3, if_neg e3]
    by_cases hd : (2 : ℤ) ∣ n
    · rw [if_neg (show ¬(2 : ℤ) ∣ (-n - 1) by omega), if_pos hd]
      ring
    · rw [if_pos (show (2 : ℤ) ∣ (-n - 1) by omega), if_neg hd]
      ring
  · have e1 : (1 : ℚ) - r < 1 / 2 := by linarith
    have e2 : ¬(r < 1 / 2) := by linarith
    rw [if_pos e1, if_neg e2, if_pos hc]
    ring

/-- The round-to-nearest-even integer is odd under negation. -/
theorem roundEven_neg (z : ℚ) : roundEven (-z) = -roundEven z := by
  rw [roundEven_spec, roundEven_spec]
  rcases eq_or_ne (z - (⌊z⌋ : ℚ)) 0 with h0 | h0
  · have hfn : ⌊-z⌋ = -⌊z⌋ := by
      have e : -z = ((-⌊z⌋ : ℤ) : ℚ) := by push_cast; linarith
      rw [e, Int.floor_intCast]
    rw [hfn]
    have e1 : -z - ((-⌊z⌋ : ℤ) : ℚ) = 0 := by push_cast; linarith
    rw [e1, h0]
    norm_num
  · have hfl : (⌊z⌋ : ℚ) < z :=
      lt_of_le_of_ne (Int.floor_le z) fun h => h0 (by linarith [h])
    have hlt1 : z < (⌊z⌋ : ℚ) + 1 := Int.lt_floor_add_one z
    have hfn : ⌊-z⌋ = -⌊z⌋ - 1 := by
      rw [Int.floor_eq_iff]
      constructor
      · push_cast; linarith
      · push_cast; linarith
    rw [hfn]
    have e1 : -z - ((-⌊z⌋ - 1 : ℤ) : ℚ) = 1 - (z - (⌊z⌋ : ℚ)) := by
      push_cast; ring
    rw [e1]
    exact roundEven_negAux ⌊z⌋ (z - (⌊z⌋ : ℚ))
      (lt_of_le_of_ne (by linarith [Int.floor_le z]) (Ne.symm h0)) (by linarith)

/-- IEEE remainder is an odd function of its first argument. -/
theorem remainderQ_neg (x y : ℚ) : remainderQ (-x) y = -remainderQ x y := by
  unfold remainderQ
  rw [neg_div, roundEven_neg]
  push_cast
  ring

/-- IEEE remainder lies within half the (positive) modulus in magnitude. -/
theorem remainderQ_abs_le (x : ℚ) {y : ℚ} (hy : 0 < y) :
    |remainderQ x y| ≤ y / 2 := by
  unfold remainderQ
  have h := roundEven_close (x / y)
  have e : x - y * (roundEven (x / y) : ℚ) = y * (x / y - (roundEven (x / y) : ℚ)) := by
    field_simp
  rw [e, abs_mul, abs_of_pos hy]
  have := mul_le_mul_of_nonneg_left h hy.le
  linarith

/-- Claim C10: calling geod_polygon_addedge on an accumulator with vertex
count zero is a silent no-op: every field of the accumulator is unchanged
and no error is signalled. -/
theorem C10_addedge_empty_noop (dir : DirFn) (p : geod_polygon) (azi s : ℚ)
    (h : p.num = 0) : geod_polygon_addedge dir p azi s = p := by
  unfold geod_polygon_addedge
  simp [h]

/-- Witness for C10 at a concrete freshly initialized accumulator. -/
theorem C10_addedge_empty_noop_witness :
    (geod_polygon_init primX false).num = 0 ∧
    geod_polygon_addedge dirX (geod_polygon_init primX false) 10 5 =
      geod_polygon_init primX false :=
  ⟨rfl, C10_addedge_empty_noop dirX (geod_polygon_init primX false) 10 5 rfl⟩

/-- roundEven of zero is zero. -/
theorem roundEven_zero : roundEven (0 : ℚ) = 0 := by
  rw [roundEven_spec]
  norm_num

/-- remainderQ of zero is zero. -/
theorem remainderQ_zero (y : ℚ) : remainderQ 0 y = 0 := by
  unfold remainderQ
  rw [zero_div, roundEven_zero]
  norm_num

/-- Defining equation of AngNormalize with the local let expanded. -/
theorem AngNormalize_spec (x : ℚ) :
    AngNormalize x =
      if |remainderQ x td| = hd then copysignQ hd x else remainderQ x td := rfl

/-- Numeric value of the half-turn constant. -/
theorem hd_eq : hd = 180 := by norm_num [hd, qd]

/-- Numeric value of the full-turn constant. -/
theorem td_eq : td = 360 := by norm_num [td, hd, qd]

/-- Evaluation fact: remainder of -180 by 360 under round-to-even is -180. -/
theorem remainderQ_neg180 : remainderQ (-180) td = -180 := by
  have hfl : ⌊(-180 : ℚ) / 360⌋ = -1 := by norm_num
  have h1 : roundEven ((-180 : ℚ) / 360) = 0 := by
    rw [roundEven_spec, hfl]
    norm_num
  rw [td_eq]
  unfold remainderQ
  rw [h1]
  norm_num

/-- Counterexample to claim C3 as stated: AngNormalize(-180) = -180, which is
not in the half-open interval (-180, 180]; the boundary value -180 is
produced for every negative input reducing to the ±180 boundary. -/
theorem C3_counterexample :
    AngNormalize (-180) = -180 ∧ ¬(-180 < AngNormalize (-180)) := by
  have h : AngNormalize (-180) = -180 := by
    rw [AngNormalize_spec]
    rw [remainderQ_neg180, hd_eq]
    norm_num [copysignQ]
  exact ⟨h, by rw [h]; norm_num⟩

/-- Claim C3, amended: for every finite input the angle normalization returns
a value in the closed interval [-180, 180], and a result on the ±180
boundary carries the sign of the input (180 only for positive inputs, -180
only for negative inputs). -/
theorem C3_angnormalize_range_sign (x : ℚ) :
    -hd ≤ AngNormalize x ∧ AngNormalize x ≤ hd ∧
    (AngNormalize x = hd → 0 < x) ∧ (AngNormalize x = -hd → x < 0) := by
  have htd : (0 : ℚ) < td := by norm_num [td, hd, qd]
  have hrem := remainderQ_abs_le x htd
  have hhd : td / 2 = hd := by norm_num [td, hd, qd]
  rw [hhd] at hrem
  have hhdpos : (0 : ℚ) < hd := by norm_num [hd, qd]
  rw [AngNormalize_spec]
  split_ifs with habs
  · unfold copysignQ
    have habs2 : |hd| = hd := abs_of_pos hhdpos
    have hxne : x ≠ 0 := by
      intro hx0
      rw [hx0] at habs
      rw [remainderQ_zero] at habs
      simp at habs
      exact absurd habs (by norm_num [hd, qd])
    split_ifs with hx
    · refine ⟨by rw [habs2], by rw [habs2]; linarith, ?_, fun _ => hx⟩
      intro h
      rw [habs2] at h
      exfalso; linarith
    · refine ⟨by rw [habs2]; linarith, by rw [habs2], ?_, ?_⟩
      · intro _
        exact lt_of_le_of_ne (not_lt.mp hx) (Ne.symm hxne)
      · intro h
        rw [habs2] at h
        exfalso; linarith
  · have hb := abs_le.mp hrem
    refine ⟨hb.1, hb.2, ?_, ?_⟩
    · intro h
      exfalso; exact habs (by rw [h]; exact abs_of_pos hhdpos)
    · intro h
      exfalso
      exact habs (by rw [h]; rw [abs_neg]; exact abs_of_pos hhdpos)

/-- Witness instantiating the amended C3 statement at a concrete input. -/
theorem C3_angnormalize_range_sign_witness :
    -hd ≤ AngNormalize 200 ∧ AngNormalize 200 ≤ hd ∧
    (AngNormalize 200 = hd → (0 : ℚ) < 200) ∧
    (AngNormalize 200 = -hd → (200 : ℚ) < 0) :=
  C3_angnormalize_range_sign 200

/-- In exact arithmetic a compensated add produces the exact sum with a zero
residual. -/
theorem accadd_eq (s : ℚ × ℚ) (y : ℚ) : accadd s y = (y + s.2 + s.1, 0) := by
  simp only [accadd, sumx_eq]
  split_ifs with h
  · rw [h]
  · norm_num

/-- In exact arithmetic accrem is remainder plus residual, residual zero. -/
theorem accrem_eq (s : ℚ × ℚ) (y : ℚ) :
    accrem s y = (remainderQ s.1 y + s.2, 0) := by
  unfold accrem
  rw [accadd_eq]
  rw [Prod.mk.injEq]
  exact ⟨by ring, rfl⟩

/-- Compensated add of a zero-residual pair. -/
theorem accadd_pair (x y : ℚ) : accadd (x, 0) y = (x + y, 0) := by
  rw [accadd_eq, Prod.mk.injEq]
  exact ⟨by ring, rfl⟩

/-- accrem of a zero-residual pair. -/
theorem accrem_pair (x y : ℚ) : accrem (x, 0) y = (remainderQ x y, 0) := by
  rw [accrem_eq, Prod.mk.injEq]
  exact ⟨by ring, rfl⟩

/-- accneg of a zero-residual pair. -/
theorem accneg_pair (x : ℚ) : accneg (x, 0) = (-x, 0) := by
  unfold accneg
  norm_num

/-- On a zero-residual accumulator the compensated area reduction agrees with
the plain-double area reduction used by the test queries. -/
theorem areareduceA_eq_areareduceB (v area0 : ℚ) (crossings : ℤ)
    (reverse sign : Bool) :
    areareduceA (v, 0) area0 crossings reverse sign =
      areareduceB v area0 crossings reverse sign := by
  simp only [areareduceA, areareduceB, accrem_pair]
  set R := remainderQ v area0 with hR
  have e2 : (if crossings % 2 ≠ 0 then
      accadd (R, 0) ((if (R, 0).1 < 0 then 1 else -1) * area0 / 2)
      else (R, 0)) =
      ((if crossings % 2 ≠ 0 then R + (if R < 0 then 1 else -1) * area0 / 2
        else R), 0) := by
    simp only []
    split_ifs with h1 <;> simp [accadd_pair]
  rw [e2]
  set A2 : ℚ := if crossings % 2 ≠ 0 then
    R + (if R < 0 then 1 else -1) * area0 / 2 else R with hA2
  have e3 : (if ¬reverse then accneg (A2, 0) else (A2, 0)) =
      ((if ¬reverse then -A2 else A2), 0) := by
    split_ifs <;> simp [accneg_pair]
  rw [e3]
  have e3b : A2 * (-1) = -A2 := by ring
  rw [e3b]
  set A3 : ℚ := if ¬reverse then -A2 else A2 with hA3
  have e4 : ∀ z : ℚ, accadd (A3, 0) z = (A3 + z, 0) := fun z => accadd_pair A3 z
  simp only [e4]
  split_ifs <;> simp <;> ring

/-- Range of the plain area reduction: the result lands in [0, area0)
without the sign convention and in (-area0/2, area0/2] with it. -/
theorem areareduceB_range (v area0 : ℚ) (crossings : ℤ) (reverse sign : Bool)
    (h0 : 0 < area0) :
    (sign = false →
      0 ≤ areareduceB v area0 crossings reverse sign ∧
      areareduceB v area0 crossings reverse sign < area0) ∧
    (sign = true →
      -(area0 / 2) < areareduceB v area0 crossings reverse sign ∧
      areareduceB v area0 crossings reverse sign ≤ area0 / 2) := by
  have hrem := remainderQ_abs_le v h0
  rcases abs_le.mp hrem with ⟨hr1, hr2⟩
  simp only [areareduceB]
  constructor
  · rintro rfl
    norm_num
    split_ifs <;> constructor <;> linarith
  · rintro rfl
    norm_num
    split_ifs <;> constructor <;> linarith

/-- Claim C7: the area reported by geod_polygon_compute (through the
areareduceA reduction with area0 = 4 pi c2) is mapped into [0, area0) when
sign is false and into (-area0/2, area0/2] when sign is true. -/
theorem C7_compute_area_mapped (O : Prim) (g : geod_geodesic) (inv : InvFn)
    (p : geod_polygon) (reverse sign : Bool)
    (hnum : 2 ≤ p.num) (hpl : p.polyline = false)
    (h0 : 0 < 4 * O.pi * g.c2) :
    (sign = false →
      0 ≤ (geod_polygon_compute O g inv p reverse sign).2.1 ∧
      (geod_polygon_compute O g inv p reverse sign).2.1 < 4 * O.pi * g.c2) ∧
    (sign = true →
      -(4 * O.pi * g.c2 / 2) < (geod_polygon_compute O g inv p reverse sign).2.1 ∧
      (geod_polygon_compute O g inv p reverse sign).2.1 ≤ 4 * O.pi * g.c2 / 2) := by
  simp only [geod_polygon_compute]
  rw [if_neg (by omega), if_neg (by rw [hpl]; exact Bool.false_ne_true)]
  have ht : accadd p.A (inv p.lat p.lon p.lat0 p.lon0).2 =
      ((inv p.lat p.lon p.lat0 p.lon0).2 + p.A.2 + p.A.1, 0) := accadd_eq _ _
  rw [ht]
  simp only []
  rw [areareduceA_eq_areareduceB]
  exact areareduceB_range _ _ _ _ _ h0

/-- Witness for C7 at a concrete two-vertex polygon on the concrete model. -/
theorem C7_compute_area_mapped_witness :
    (false = false →
      0 ≤ (geod_polygon_compute primX gX invX polyX false false).2.1 ∧
      (geod_polygon_compute primX gX invX polyX false false).2.1 <
        4 * primX.pi * gX.c2) ∧
    (false = true →
      -(4 * primX.pi * gX.c2 / 2) <
        (geod_polygon_compute primX gX invX polyX false false).2.1 ∧
      (geod_polygon_compute primX gX invX polyX false false).2.1 ≤
        4 * primX.pi * gX.c2 / 2) := by
  have hc2 : gX.c2 = 1 := by
    simp only [gX, geod_init]
    norm_num [sq, tol2, tol0, epsilon, fmaxQ, fminQ, primX]
  apply C7_compute_area_mapped primX gX invX polyX false false
  · norm_num [polyX]
  · rfl
  · rw [hc2]
    norm_num [primX]

/-- The break-time iteration counter of the Newton/bisection loop never
exceeds maxit2: every continuing iteration has numit different from maxit2,
so the counter can only advance up to the hard cap. -/
theorem newtonLoop_count_le (O : Prim) (g : geod_geodesic)
    (sbet1 cbet1 dn1 sbet2 cbet2 dn2 slam12 clam12 : ℚ) :
    ∀ (fuel numit : ℕ) (st : NSt), numit ≤ maxit2 →
      (newtonLoop O g sbet1 cbet1 dn1 sbet2 cbet2 dn2 slam12 clam12
        fuel numit st).2 ≤ maxit2 := by
  intro fuel
  induction fuel with
  | zero =>
    intro numit st h
    simpa [newtonLoop] using h
  | succ n ih =>
    intro numit st h
    simp only [newtonLoop]
    by_cases hbr : st.tripb = true ∨
        ¬(|(Lambda12 O g sbet1 cbet1 dn1 sbet2 cbet2 dn2 st.salp1 st.calp1
            slam12 clam12 (decide (numit < maxit1))).lam12| ≥
          (if st.tripn = true then (8 : ℚ) else 1) * tol0) ∨
        numit = maxit2
    · rw [if_pos hbr]
      exact h
    · have hne : numit ≠ maxit2 := fun he => hbr (Or.inr (Or.inr he))
      rw [if_neg hbr]
      exact ih _ _ (by omega)

/-- Once the fuel is at least maxit2 + 1 - numit the Newton/bisection loop's
result no longer depends on the fuel: the unconditional break at
numit = maxit2 fires before the fuel can run out. -/
theorem newtonLoop_fuel_irrel (O : Prim) (g : geod_geodesic)
    (sbet1 cbet1 dn1 sbet2 cbet2 dn2 slam12 clam12 : ℚ) :
    ∀ (fuel1 fuel2 numit : ℕ) (st : NSt), numit ≤ maxit2 →
      maxit2 + 1 ≤ numit + fuel1 → maxit2 + 1 ≤ numit + fuel2 →
      newtonLoop O g sbet1 cbet1 dn1 sbet2 cbet2 dn2 slam12 clam12
          fuel1 numit st =
        newtonLoop O g sbet1 cbet1 dn1 sbet2 cbet2 dn2 slam12 clam12
          fuel2 numit st := by
  intro fuel1
  induction fuel1 with
  | zero =>
    intro fuel2 numit st h h1 h2
    exact absurd h1 (by omega)
  | succ n ih =>
    intro fuel2 numit st h h1 h2
    cases fuel2 with
    | zero => exact absurd h2 (by omega)
    | succ m =>
      simp only [newtonLoop]
      by_cases hbr : st.tripb = true ∨
          ¬(|(Lambda12 O g sbet1 cbet1 dn1 sbet2 cbet2 dn2 st.salp1 st.calp1
              slam12 clam12 (decide (numit < maxit1))).lam12| ≥
            (if st.tripn = true then (8 : ℚ) else 1) * tol0) ∨
          numit = maxit2
      · rw [if_pos hbr, if_pos hbr]
      · have hne : numit ≠ maxit2 := fun he => hbr (Or.inr (Or.inr he))
        rw [if_neg hbr, if_neg hbr]
        exact ih _ _ _ (by omega) (by omega) (by omega)

/-- Claim C1: the safeguarded Newton/bisection loop of the inverse solver
terminates with an iteration count that never exceeds the hard cap
maxit2 = 20 + DBL_MANT_DIG + 10 = 20 + 53 + 10; any fuel of at least
maxit2 + 1 yields the same final state, so the loop as invoked by the
inverse core (with fuel maxit2 + 1) is total and its result well defined. -/
theorem C1_newton_iteration_cap (O : Prim) (g : geod_geodesic)
    (sbet1 cbet1 dn1 sbet2 cbet2 dn2 slam12 clam12 : ℚ) (st0 : NSt)
    (fuel : ℕ) (hf : maxit2 + 1 ≤ fuel) :
    (newtonLoop O g sbet1 cbet1 dn1 sbet2 cbet2 dn2 slam12 clam12
        (maxit2 + 1) 0 st0).2 ≤ maxit2 ∧
    newtonLoop O g sbet1 cbet1 dn1 sbet2 cbet2 dn2 slam12 clam12
        fuel 0 st0 =
      newtonLoop O g sbet1 cbet1 dn1 sbet2 cbet2 dn2 slam12 clam12
        (maxit2 + 1) 0 st0 ∧
    maxit2 = 20 + 53 + 10 := by
  refine ⟨newtonLoop_count_le O g sbet1 cbet1 dn1 sbet2 cbet2 dn2 slam12
      clam12 (maxit2 + 1) 0 st0 (by omega),
    newtonLoop_fuel_irrel O g sbet1 cbet1 dn1 sbet2 cbet2 dn2 slam12 clam12
      fuel (maxit2 + 1) 0 st0 (by omega) (by omega) (by omega), ?_⟩
  decide

/-- Witness instantiating C1 on the concrete model with fuel 84. -/
theorem C1_newton_iteration_cap_witness :
    (newtonLoop primX gX 0 1 1 0 1 1 0 1 (maxit2 + 1) 0 stW).2 ≤ maxit2 ∧
    newtonLoop primX gX 0 1 1 0 1 1 0 1 84 0 stW =
      newtonLoop primX gX 0 1 1 0 1 1 0 1 (maxit2 + 1) 0 stW ∧
    maxit2 = 20 + 53 + 10 :=
  C1_newton_iteration_cap primX gX 0 1 1 0 1 1 0 1 stW 84 (by decide)

/-- The capability word stored by geod_lineinit. -/
theorem lineinit_caps (O : Prim) (g : geod_geodesic)
    (lat1 lon1 azi1 : OptD) (caps0 : ℕ) :
    (geod_lineinit O g lat1 lon1 azi1 caps0).caps =
      (if caps0 ≠ 0 then caps0 else GEOD_DISTANCE_IN ||| GEOD_LONGITUDE) |||
        GEOD_LATITUDE ||| GEOD_AZIMUTH ||| GEOD_LONG_UNROLL := rfl

/-- A distance-mode position query on a line without the distance-input
capability returns NaN immediately and leaves every caller output variable
untouched. -/
theorem genposition_noncapable (O : Prim) (l : geod_geodesicline)
    (flags : ℕ) (s12_a12 : OptD) (req : PosReq) (prev : PosVals)
    (harc : flags &&& GEOD_ARCMODE = 0)
    (hcap : l.caps &&& (GEOD_DISTANCE_IN &&& OUT_ALL) = 0) :
    geod_genposition O l flags s12_a12 req prev = (none, prev) := by
  have hc : ¬(flags &&& GEOD_ARCMODE ≠ 0 ∨
      (l.caps &&& (GEOD_DISTANCE_IN &&& OUT_ALL)) ≠ 0) := by
    push_neg
    exact ⟨harc, hcap⟩
  simp only [geod_genposition]
  rw [if_pos hc]

/-- Claim C2 (amended): in distance mode on a line lacking GEOD_DISTANCE_IN
the position query fails by returning NaN as its arc-length return value and
returns without writing any of the caller's output variables (they keep
their previous values; they are not set to NaN), and no exception is
raised.  -/
theorem C2_distance_mode_incapable (O : Prim) (l : geod_geodesicline)
    (flags : ℕ) (s12_a12 : OptD) (req : PosReq) (prev : PosVals)
    (harc : flags &&& GEOD_ARCMODE = 0)
    (hcap : l.caps &&& (GEOD_DISTANCE_IN &&& OUT_ALL) = 0) :
    (geod_genposition O l flags s12_a12 req prev).1 = none ∧
    (geod_genposition O l flags s12_a12 req prev).2 = prev := by
  rw [genposition_noncapable O l flags s12_a12 req prev harc hcap]
  exact ⟨rfl, rfl⟩

/-- Witness for the amended C2 on a concrete latitude-only line. -/
theorem C2_distance_mode_incapable_witness :
    (geod_genposition primX
        (geod_lineinit primX gX (dlit 1) (dlit 2) (dlit 3) GEOD_LATITUDE)
        GEOD_NOFLAGS (dlit 100) directReq prevX).1 = none ∧
    (geod_genposition primX
        (geod_lineinit primX gX (dlit 1) (dlit 2) (dlit 3) GEOD_LATITUDE)
        GEOD_NOFLAGS (dlit 100) directReq prevX).2 = prevX :=
  C2_distance_mode_incapable primX
    (geod_lineinit primX gX (dlit 1) (dlit 2) (dlit 3) GEOD_LATITUDE)
    GEOD_NOFLAGS (dlit 100) directReq prevX (by decide)
    (by rw [lineinit_caps]; decide)

/-- Counterexample to the original C2: on a latitude-only line the
distance-mode query requests lat2 (directReq.lat2 = true), yet after the
failing call the caller's lat2 variable still holds its previous finite
value some 0, not NaN; only the returned arc length is NaN (none). -/
theorem C2_counterexample :
    directReq.lat2 = true ∧
    (geod_genposition primX
        (geod_lineinit primX gX (dlit 1) (dlit 2) (dlit 3) GEOD_LATITUDE)
        GEOD_NOFLAGS (dlit 100) directReq prevX).2.lat2 = some 0 ∧
    (some (0 : ℚ) : OptD) ≠ none ∧
    (geod_genposition primX
        (geod_lineinit primX gX (dlit 1) (dlit 2) (dlit 3) GEOD_LATITUDE)
        GEOD_NOFLAGS (dlit 100) directReq prevX).1 = none := by
  have h := genposition_noncapable primX
    (geod_lineinit primX gX (dlit 1) (dlit 2) (dlit 3) GEOD_LATITUDE)
    GEOD_NOFLAGS (dlit 100) directReq prevX (by decide)
    (by rw [lineinit_caps]; decide)
  refine ⟨rfl, ?_, Option.some_ne_none 0, ?_⟩
  · rw [h]
    rfl
  · rw [h]

/-- NaN absorbs through lifted addition (left). -/
@[simp] theorem dnone_add (x : OptD) : (none : OptD) + x = none := by
  rcases x with _ | q <;> rfl

/-- NaN absorbs through lifted addition (right). -/
@[simp] theorem add_dnone (x : OptD) : x + (none : OptD) = none := by
  rcases x with _ | q <;> rfl

/-- NaN absorbs through lifted subtraction (left). -/
@[simp] theorem dnone_sub (x : OptD) : (none : OptD) - x = none := by
  rcases x with _ | q <;> rfl

/-- NaN absorbs through lifted subtraction (right). -/
@[simp] theorem sub_dnone (x : OptD) : x - (none : OptD) = none := by
  rcases x with _ | q <;> rfl

/-- NaN absorbs through lifted multiplication (left). -/
@[simp] theorem dnone_mul (x : OptD) : (none : OptD) * x = none := by
  rcases x with _ | q <;> rfl

/-- NaN absorbs through lifted multiplication (right). -/
@[simp] theorem mul_dnone (x : OptD) : x * (none : OptD) = none := by
  rcases x with _ | q <;> rfl

/-- NaN absorbs through lifted division (left). -/
@[simp] theorem dnone_div (x : OptD) : (none : OptD) / x = none := by
  rcases x with _ | q <;> rfl

/-- NaN absorbs through lifted division (right). -/
@[simp] theorem div_dnone (x : OptD) : x / (none : OptD) = none := by
  rcases x with _ | q <;> rfl

/-- NaN negated is NaN. -/
@[simp] theorem neg_dnone : -(none : OptD) = none := rfl

/-- NaN squared is NaN. -/
@[simp] theorem dsq_dnone : dsq (none : OptD) = none := rfl

/-- fabs of NaN is NaN. -/
@[simp] theorem dabs_dnone : dabs (none : OptD) = none := rfl

/-- sin of NaN is NaN. -/
@[simp] theorem dsin_dnone (O : Prim) : dsin O none = none := rfl

/-- cos of NaN is NaN. -/
@[simp] theorem dcos_dnone (O : Prim) : dcos O none = none := rfl

/-- sqrt of NaN is NaN. -/
@[simp] theorem dsqrt_dnone (O : Prim) : dsqrt O none = none := rfl

/-- atan2 with NaN first argument is NaN. -/
@[simp] theorem datan2_dnone_left (O : Prim) (x : OptD) :
    datan2 O none x = none := by
  rcases x with _ | q <;> rfl

/-- atan2 with NaN second argument is NaN. -/
@[simp] theorem datan2_dnone_right (O : Prim) (y : OptD) :
    datan2 O y none = none := by
  rcases y with _ | q <;> rfl

/-- hypot with NaN first argument is NaN. -/
@[simp] theorem dhypot_dnone_left (O : Prim) (x : OptD) :
    dhypot O none x = none := by
  rcases x with _ | q <;> rfl

/-- hypot with NaN second argument is NaN. -/
@[simp] theorem dhypot_dnone_right (O : Prim) (y : OptD) :
    dhypot O y none = none := by
  rcases y with _ | q <;> rfl

/-- remainder of NaN is NaN. -/
@[simp] theorem dremainder_dnone (y : ℚ) : dremainder none y = none := rfl

/-- remquo of NaN is NaN with quotient bits 0. -/
@[simp] theorem dremquo_dnone (y : ℚ) : dremquo none y = (none, 0) := rfl

/-- IEEE equality is false when the left side is NaN. -/
@[simp] theorem deqb_dnone_left (b : OptD) : deqb none b = false := by
  rcases b with _ | q <;> rfl

/-- IEEE equality is false when the right side is NaN. -/
@[simp] theorem deqb_dnone_right (a : OptD) : deqb a none = false := by
  rcases a with _ | q <;> rfl

/-- IEEE less-than is false when the left side is NaN. -/
@[simp] theorem dlt_dnone_left (b : OptD) : dlt none b = false := by
  rcases b with _ | q <;> rfl

/-- IEEE less-than is false when the right side is NaN. -/
@[simp] theorem dlt_dnone_right (a : OptD) : dlt a none = false := by
  rcases a with _ | q <;> rfl

/-- IEEE less-or-equal is false when the left side is NaN. -/
@[simp] theorem dle_dnone_left (b : OptD) : dle none b = false := by
  rcases b with _ | q <;> rfl

/-- IEEE less-or-equal is false when the right side is NaN. -/
@[simp] theorem dle_dnone_right (a : OptD) : dle a none = false := by
  rcases a with _ | q <;> rfl

/-- C fmax drops a NaN second argument. -/
@[simp] theorem dfmax_some_dnone (q : ℚ) : dfmax (some q) none = some q := rfl

/-- C fmax drops a NaN first argument. -/
@[simp] theorem dfmax_dnone (y : OptD) : dfmax none y = y := by
  rcases y with _ | q <;> rfl

/-- copysign of a NaN magnitude is NaN. -/
@[simp] theorem dcopysign_dnone_v (s : OptD) : dcopysign none s = none := by
  rcases s with _ | q
  · rfl
  · simp only [dcopysign]
    split_ifs <;> rfl

/-- signbit of NaN is modelled as clear. -/
@[simp] theorem dsignbit_dnone : dsignbit none = false := rfl

/-- AngRound of NaN is NaN. -/
@[simp] theorem AngRoundD_dnone : AngRoundD none = none := rfl

/-- AngNormalize of NaN is NaN. -/
@[simp] theorem AngNormalizeD_dnone : AngNormalizeD none = none := rfl

/-- LatFix of NaN is NaN. -/
@[simp] theorem LatFixD_dnone : LatFixD none = none := rfl

/-- sincosdx of NaN is a NaN pair. -/
@[simp] theorem sincosdxD_dnone (O : Prim) : sincosdxD O none = (none, none) := rfl

/-- atan2dx with NaN ordinate is NaN. -/
@[simp] theorem atan2dxD_dnone_y (O : Prim) (x : OptD) :
    atan2dxD O none x = none := by
  rcases x with _ | q
  · rfl
  · simp only [atan2dxD]
    split_ifs <;> simp

/-- atan2dx with NaN abscissa is NaN. -/
@[simp] theorem atan2dxD_dnone_x (O : Prim) (y : OptD) :
    atan2dxD O y none = none := by
  rcases y with _ | q
  · rfl
  · simp only [atan2dxD]
    split_ifs <;> simp

/-- norm2 with NaN first component yields a NaN pair. -/
@[simp] theorem norm2D_dnone_left (O : Prim) (c : OptD) :
    norm2D O none c = (none, none) := by
  rcases c with _ | q <;> rfl

/-- norm2 with NaN second component yields a NaN pair. -/
@[simp] theorem norm2D_dnone_right (O : Prim) (s : OptD) :
    norm2D O s none = (none, none) := by
  rcases s with _ | q <;> rfl

/-- SinCosSeries at a NaN angle is NaN (the final multiply by sinx or cosx
absorbs it, whatever the coefficients). -/
@[simp] theorem SinCosSeriesD_dnone (sinp : Bool) (c : List OptD) (n : ℕ) :
    SinCosSeriesD sinp none none c n = none := by
  cases sinp <;> simp [SinCosSeriesD]

/-- LatFix sends an out-of-range latitude to NaN. -/
theorem LatFixD_gt (q : ℚ) (hq : qd < |q|) : LatFixD (some q) = none := by
  simp [LatFixD, dlt, dabs, dmap, hq]

/-- On an out-of-range latitude the line initializer stores NaN in the
fields ssig1, csig1 and calp0 that the position query's lat2/lon2/azi2
computations consume. -/
theorem lineinit_nan_fields (O : Prim) (g : geod_geodesic)
    (lat1 lon1 azi1 : OptD) (caps0 : ℕ) (h : LatFixD lat1 = none) :
    (geod_lineinit O g lat1 lon1 azi1 caps0).ssig1 = none ∧
    (geod_lineinit O g lat1 lon1 azi1 caps0).csig1 = none ∧
    (geod_lineinit O g lat1 lon1 azi1 caps0).calp0 = none := by
  simp [geod_lineinit, geod_lineinit_int, h]

/-- A distance-mode position query (through the geod_direct request) on a
line whose ssig1, csig1 and calp0 fields are NaN produces NaN for lat2, lon2
and azi2. -/
theorem genposition_nan_direct (O : Prim) (l : geod_geodesicline)
    (s12a : OptD) (prev : PosVals)
    (hcap : (l.caps &&& (GEOD_DISTANCE_IN &&& OUT_ALL)) ≠ 0)
    (hLAT : posOutmask directReq &&& l.caps &&& OUT_ALL &&& GEOD_LATITUDE ≠ 0)
    (hLON : posOutmask directReq &&& l.caps &&& OUT_ALL &&& GEOD_LONGITUDE ≠ 0)
    (hAZI : posOutmask directReq &&& l.caps &&& OUT_ALL &&& GEOD_AZIMUTH ≠ 0)
    (hss : l.ssig1 = none) (hcs : l.csig1 = none) (hc0 : l.calp0 = none) :
    (geod_genposition O l GEOD_NOFLAGS s12a directReq prev).2.lat2 = none ∧
    (geod_genposition O l GEOD_NOFLAGS s12a directReq prev).2.lon2 = none ∧
    (geod_genposition O l GEOD_NOFLAGS s12a directReq prev).2.azi2 = none := by
  have hcond : ¬¬(GEOD_NOFLAGS &&& GEOD_ARCMODE ≠ 0 ∨
      (l.caps &&& (GEOD_DISTANCE_IN &&& OUT_ALL)) ≠ 0) :=
    fun hn => hn (Or.inr hcap)
  simp only [geod_genposition]
  simp only [if_neg hcond]
  refine ⟨?_, ?_, ?_⟩ <;>
    simp [hss, hcs, hc0, hLAT, hLON, hAZI, GEOD_NOFLAGS, GEOD_ARCMODE,
      GEOD_LONG_UNROLL]

/-- The direct problem geod_gendirect with the geod_direct request record is
the position query on the line built with the automatic distance-input
capability (a definitional identity). -/
theorem gendirect_as_genposition (O : Prim) (g : geod_geodesic)
    (lat1 lon1 azi1 s12 : OptD) (prev : PosVals) :
    geod_gendirect O g lat1 lon1 azi1 GEOD_NOFLAGS s12 directReq prev =
      geod_genposition O (geod_lineinit O g lat1 lon1 azi1
        (posOutmask directReq |||
          (if GEOD_NOFLAGS &&& GEOD_ARCMODE ≠ 0 then GEOD_NONE
           else GEOD_DISTANCE_IN))) GEOD_NOFLAGS s12 directReq prev := rfl

/-- Claim C5: a starting latitude with |lat1| > 90 is silently converted to
NaN by LatFix and the NaN propagates through the direct problem (the
geod_direct call geod_gendirect with the lat2/lon2/azi2 request): the
computed lat2, lon2 and azi2 are all NaN, and no out-of-band failure is
signalled (the call still returns a value record). -/
theorem C5_invalid_latitude_nan (O : Prim) (g : geod_geodesic) (q : ℚ)
    (hq : qd < |q|) (lon1 azi1 s12 : OptD) (prev : PosVals) :
    (geod_gendirect O g (some q) lon1 azi1 GEOD_NOFLAGS s12 directReq
      prev).2.lat2 = none ∧
    (geod_gendirect O g (some q) lon1 azi1 GEOD_NOFLAGS s12 directReq
      prev).2.lon2 = none ∧
    (geod_gendirect O g (some q) lon1 azi1 GEOD_NOFLAGS s12 directReq
      prev).2.azi2 = none := by
  have hfix : LatFixD (some q) = none := LatFixD_gt q hq
  have hf := lineinit_nan_fields O g (some q) lon1 azi1
    (posOutmask directReq |||
      (if GEOD_NOFLAGS &&& GEOD_ARCMODE ≠ 0 then GEOD_NONE
       else GEOD_DISTANCE_IN)) hfix
  rw [gendirect_as_genposition]
  exact genposition_nan_direct O
    (geod_lineinit O g (some q) lon1 azi1
      (posOutmask directReq |||
        (if GEOD_NOFLAGS &&& GEOD_ARCMODE ≠ 0 then GEOD_NONE
         else GEOD_DISTANCE_IN))) s12 prev
    (by rw [lineinit_caps]; decide) (by rw [lineinit_caps]; decide)
    (by rw [lineinit_caps]; decide) (by rw [lineinit_caps]; decide)
    hf.1 hf.2.1 hf.2.2

/-- Witness instantiating C5 at latitude 91 on the concrete model. -/
theorem C5_invalid_latitude_nan_witness :
    (geod_gendirect primX gX (some (91 : ℚ)) (dlit 2) (dlit 3) GEOD_NOFLAGS
      (dlit 4) directReq prevX).2.lat2 = none ∧
    (geod_gendirect primX gX (some (91 : ℚ)) (dlit 2) (dlit 3) GEOD_NOFLAGS
      (dlit 4) directReq prevX).2.lon2 = none ∧
    (geod_gendirect primX gX (some (91 : ℚ)) (dlit 2) (dlit 3) GEOD_NOFLAGS
      (dlit 4) directReq prevX).2.azi2 = none :=
  C5_invalid_latitude_nan primX gX 91 (by norm_num [qd]) (dlit 2) (dlit 3)
    (dlit 4) prevX

/-- Round-to-nearest-even of a value below one half in magnitude is zero. -/
theorem roundEven_small (z : ℚ) (h : |z| < 1 / 2) : roundEven z = 0 := by
  rw [roundEven_spec]
  rcases abs_lt.mp h with ⟨h1, h2⟩
  rcases le_or_lt 0 z with hz | hz
  · have hf : ⌊z⌋ = 0 := Int.floor_eq_zero_iff.mpr ⟨hz, by linarith⟩
    rw [hf]
    push_cast
    rw [if_pos (by linarith)]
  · have hf : ⌊z⌋ = -1 := by
      rw [Int.floor_eq_iff]
      constructor
      · push_cast
        linarith
      · push_cast
        linarith
    rw [hf]
    push_cast
    rw [if_neg (by linarith), if_pos (by linarith)]

/-- IEEE remainder is the identity on arguments below half the modulus. -/
theorem remainderQ_small (x : ℚ) {y : ℚ} (hy : 0 < y) (h : |x| < y / 2) :
    remainderQ x y = x := by
  unfold remainderQ
  have hq : |x / y| < 1 / 2 := by
    rw [abs_div, abs_of_pos hy, div_lt_iff hy]
    linarith
  rw [roundEven_small _ hq]
  norm_num

/-- sincosdx at zero degrees under the libm exactness facts. -/
theorem sincosdx_zero (O : Prim) (hsin0 : O.sin 0 = 0) (hcos0 : O.cos 0 = 1) :
    sincosdx O 0 = (0, 1) := by
  unfold sincosdx remquoQ
  rw [remainderQ_zero, zero_div, roundEven_zero]
  norm_num [hsin0, hcos0, copysignQ]

/-- norm2 of an exact (0, 1) pair under hypot exactness. -/
theorem norm2_01 (O : Prim) (hhyp : O.hypot 0 1 = 1) : norm2 O 0 1 = (0, 1) := by
  unfold norm2
  rw [hhyp]
  norm_num

/-- fmax with the tiny underflow guard leaves an exact unit cosine alone. -/
theorem fmax_tiny_one (O : Prim) (htiny : tiny O ≤ 1) :
    fmaxQ (tiny O) 1 = 1 := max_eq_right htiny

/-- atan2dx of a unit sine and zero cosine is due east or west. -/
theorem atan2dx_sign (O : Prim) (hatan : O.atan2 0 1 = 0) (s : ℚ)
    (hs : s = 1 ∨ s = -1) : atan2dx O s 0 = if s < 0 then -qd else qd := by
  rcases hs with h | h <;> subst h
  · rw [if_neg (by norm_num)]
    norm_num [atan2dx, signbitQ, hatan]
  · rw [if_pos (by norm_num)]
    norm_num [atan2dx, signbitQ, hatan]

/-- Canonicalization at two zero latitudes: canonical lat1. -/
theorem canonicalize_zero_lat1 (O : Prim) (lon1 lon2 : ℚ) :
    (canonicalize O 0 lon1 0 lon2).lat1 = 0 := by
  have hL : LatFix O (0 : ℚ) = 0 := LatFix_eq O (by norm_num [qd])
  norm_num [canonicalize, hL, AngRound_eq, signbitQ]

/-- Canonicalization at two zero latitudes: canonical lat2. -/
theorem canonicalize_zero_lat2 (O : Prim) (lon1 lon2 : ℚ) :
    (canonicalize O 0 lon1 0 lon2).lat2 = 0 := by
  have hL : LatFix O (0 : ℚ) = 0 := LatFix_eq O (by norm_num [qd])
  norm_num [canonicalize, hL, AngRound_eq, signbitQ]

/-- Canonicalization at two zero latitudes: no endpoint swap. -/
theorem canonicalize_zero_swapp (O : Prim) (lon1 lon2 : ℚ) :
    (canonicalize O 0 lon1 0 lon2).swapp = 1 := by
  have hL : LatFix O (0 : ℚ) = 0 := LatFix_eq O (by norm_num [qd])
  norm_num [canonicalize, hL, AngRound_eq]

/-- Canonicalization at two zero latitudes: latsign is -1. -/
theorem canonicalize_zero_latsign (O : Prim) (lon1 lon2 : ℚ) :
    (canonicalize O 0 lon1 0 lon2).latsign = -1 := by
  have hL : LatFix O (0 : ℚ) = 0 := LatFix_eq O (by norm_num [qd])
  norm_num [canonicalize, hL, AngRound_eq, signbitQ]

/-- Canonicalization at two zero latitudes: lonsign is the sign of the
exactly-rounded longitude difference. -/
theorem canonicalize_zero_lonsign (O : Prim) (lon1 lon2 : ℚ) :
    (canonicalize O 0 lon1 0 lon2).lonsign =
      (if (AngDiff lon1 lon2).1 < 0 then (-1 : ℚ) else 1) := by
  have hL : LatFix O (0 : ℚ) = 0 := LatFix_eq O (by norm_num [qd])
  norm_num [canonicalize, hL, AngRound_eq, signbitQ]

/-- Canonicalization at two zero latitudes: the canonical longitude
difference is the absolute exactly-rounded difference. -/
theorem canonicalize_zero_lon12 (O : Prim) (lon1 lon2 : ℚ) :
    (canonicalize O 0 lon1 0 lon2).lon12 = |(AngDiff lon1 lon2).1| := by
  norm_num [canonicalize, signbitQ]
  rcases lt_or_ge (AngDiff lon1 lon2).1 0 with h | h
  · rw [if_pos h, abs_of_neg h]
    try ring
  · rw [if_neg (not_lt.mpr h), abs_of_nonneg h]
    try ring

/-- Canonicalization at two zero latitudes: the canonical longitude
difference in radians. -/
theorem canonicalize_zero_lam12 (O : Prim) (lon1 lon2 : ℚ) :
    (canonicalize O 0 lon1 0 lon2).lam12 =
      |(AngDiff lon1 lon2).1| * degree O := by
  norm_num [canonicalize, signbitQ]
  rcases lt_or_ge (AngDiff lon1 lon2).1 0 with h | h
  · rw [if_pos h, abs_of_neg h]
    try ring
  · rw [if_neg (not_lt.mpr h), abs_of_nonneg h]
    try ring

/-- The equatorial closed-form branch of the canonical-frame inverse core:
with both canonical reduced latitudes zero, a nonzero sine of the longitude
difference and the flattening guard, the core returns the closed form with
due-east azimuth sine/cosine pairs in the canonical frame. -/
theorem geninverseCore_equatorial (O : Prim) (g : geod_geodesic)
    (outmask : ℕ) (lon12 lon12s lam12 slam12 clam12 : ℚ)
    (hsin0 : O.sin 0 = 0) (hcos0 : O.cos 0 = 1) (hhyp : O.hypot 0 1 = 1)
    (htiny : tiny O ≤ 1) (hslam : slam12 ≠ 0)
    (hguard : g.f ≤ 0 ∨ lon12s ≥ g.f * hd) :
    (geninverseCore O g outmask 0 0 lon12 lon12s lam12 slam12 clam12).a12 =
      lon12 / g.f1 ∧
    (geninverseCore O g outmask 0 0 lon12 lon12s lam12 slam12 clam12).s12x =
      g.a * lam12 ∧
    (geninverseCore O g outmask 0 0 lon12 lon12s lam12 slam12 clam12).salp1 =
      1 ∧
    (geninverseCore O g outmask 0 0 lon12 lon12s lam12 slam12 clam12).calp1 =
      0 ∧
    (geninverseCore O g outmask 0 0 lon12 lon12s lam12 slam12 clam12).salp2 =
      1 ∧
    (geninverseCore O g outmask 0 0 lon12 lon12s lam12 slam12 clam12).calp2 =
      0 := by
  have hsc := sincosdx_zero O hsin0 hcos0
  have hm : ¬((0 : ℚ) = -qd ∨ slam12 = 0) := by
    push_neg
    exact ⟨by norm_num [qd], hslam⟩
  have hE : (norm2 O ((sincosdx O 0).1 * g.f1) (sincosdx O 0).2).1 = 0 := by
    rw [hsc]
    norm_num [norm2_01 O hhyp]
  refine ⟨?_, ?_, ?_, ?_, ?_, ?_⟩ <;>
    · simp only [geninverseCore]
      rw [if_neg hm, if_pos (And.intro hE hguard)]
      simp [coreEquatorial]

/-- The equatorial closed form at the level of geod_geninverse: s12 is the
equatorial radius times the absolute longitude difference in radians, a12 is
the absolute longitude difference over f1, and both azimuths are due east
(+90) for an eastward difference and due west (-90) for a westward one. -/
theorem geninverse_equatorial (O : Prim) (g : geod_geodesic)
    (lon1 lon2 : ℚ) (outmask0 : ℕ)
    (hsin0 : O.sin 0 = 0) (hcos0 : O.cos 0 = 1) (hhyp : O.hypot 0 1 = 1)
    (hatan : O.atan2 0 1 = 0) (htiny : tiny O ≤ 1)
    (hdist : (outmask0 &&& OUT_ALL) &&& GEOD_DISTANCE ≠ 0)
    (hslam : (canonicalize O 0 lon1 0 lon2).slam12 ≠ 0)
    (hguard : g.f ≤ 0 ∨ (canonicalize O 0 lon1 0 lon2).lon12s ≥ g.f * hd) :
    (geod_geninverse O g 0 lon1 0 lon2 outmask0).s12 =
      g.a * (|(AngDiff lon1 lon2).1| * degree O) ∧
    (geod_geninverse O g 0 lon1 0 lon2 outmask0).a12 =
      |(AngDiff lon1 lon2).1| / g.f1 ∧
    (geod_geninverse O g 0 lon1 0 lon2 outmask0).azi1 =
      (if (AngDiff lon1 lon2).1 < 0 then -qd else qd) ∧
    (geod_geninverse O g 0 lon1 0 lon2 outmask0).azi2 =
      (if (AngDiff lon1 lon2).1 < 0 then -qd else qd) := by
  have hc := geninverseCore_equatorial O g (outmask0 &&& OUT_ALL)
    ((canonicalize O 0 lon1 0 lon2).lon12)
    ((canonicalize O 0 lon1 0 lon2).lon12s)
    ((canonicalize O 0 lon1 0 lon2).lam12)
    ((canonicalize O 0 lon1 0 lon2).slam12)
    ((canonicalize O 0 lon1 0 lon2).clam12)
    hsin0 hcos0 hhyp htiny hslam hguard
  have h10 : ¬((1 : ℚ) < 0) := by norm_num
  have hsg : (if (AngDiff lon1 lon2).1 < 0 then (-1 : ℚ) else 1) = 1 ∨
      (if (AngDiff lon1 lon2).1 < 0 then (-1 : ℚ) else 1) = -1 := by
    split_ifs with h
    · exact Or.inr rfl
    · exact Or.inl rfl
  refine ⟨?_, ?_, ?_, ?_⟩
  · simp only [geod_geninverse, geod_geninverse_int, geninverseWrap]
    rw [canonicalize_zero_lat1, canonicalize_zero_lat2]
    rw [if_pos hdist, hc.2.1, canonicalize_zero_lam12]
    ring
  · simp only [geod_geninverse, geod_geninverse_int, geninverseWrap]
    rw [canonicalize_zero_lat1, canonicalize_zero_lat2]
    rw [hc.1, canonicalize_zero_lon12]
  · simp only [geod_geninverse, geod_geninverse_int, geninverseWrap]
    rw [canonicalize_zero_lat1, canonicalize_zero_lat2]
    rw [canonicalize_zero_swapp, if_neg h10]
    rw [hc.2.2.1, hc.2.2.2.1, canonicalize_zero_lonsign]
    rw [one_mul, one_mul, zero_mul]
    rw [atan2dx_sign O hatan _ hsg]
    rcases lt_or_ge (AngDiff lon1 lon2).1 0 with hd0 | hd0
    · have hv : (if (AngDiff lon1 lon2).1 < 0 then (-1 : ℚ) else 1) = -1 :=
        if_pos hd0
      rw [hv, if_pos (by norm_num : (-1 : ℚ) < 0), if_pos hd0]
    · have hv : (if (AngDiff lon1 lon2).1 < 0 then (-1 : ℚ) else 1) = 1 :=
        if_neg (not_lt.mpr hd0)
      rw [hv, if_neg (by norm_num : ¬(1 : ℚ) < 0), if_neg (not_lt.mpr hd0)]
  · simp only [geod_geninverse, geod_geninverse_int, geninverseWrap]
    rw [canonicalize_zero_lat1, canonicalize_zero_lat2]
    rw [canonicalize_zero_swapp, if_neg h10]
    rw [hc.2.2.2.2.1, hc.2.2.2.2.2, canonicalize_zero_lonsign]
    rw [one_mul, one_mul, zero_mul]
    rw [atan2dx_sign O hatan _ hsg]
    rcases lt_or_ge (AngDiff lon1 lon2).1 0 with hd0 | hd0
    · have hv : (if (AngDiff lon1 lon2).1 < 0 then (-1 : ℚ) else 1) = -1 :=
        if_pos hd0
      rw [hv, if_pos (by norm_num : (-1 : ℚ) < 0), if_pos hd0]
    · have hv : (if (AngDiff lon1 lon2).1 < 0 then (-1 : ℚ) else 1) = 1 :=
        if_neg (not_lt.mpr hd0)
      rw [hv, if_neg (by norm_num : ¬(1 : ℚ) < 0), if_neg (not_lt.mpr hd0)]

/-- Claim C4 (amended): for two points with zero latitude, not on a common
meridian (the canonical sine of the longitude difference is nonzero), under
the flattening guard, the inverse solver takes the equatorial closed form:
s12 = a times the absolute longitude difference in radians, a12 is the
absolute longitude difference over f1, and the azimuths are due east (+90)
for an eastward longitude difference and due west (-90) for a westward one,
with no iteration. -/
theorem C4_equatorial_branch (O : Prim) (g : geod_geodesic)
    (lon1 lon2 : ℚ) (outmask0 : ℕ)
    (hsin0 : O.sin 0 = 0) (hcos0 : O.cos 0 = 1) (hhyp : O.hypot 0 1 = 1)
    (hatan : O.atan2 0 1 = 0) (htiny : tiny O ≤ 1)
    (hdist : (outmask0 &&& OUT_ALL) &&& GEOD_DISTANCE ≠ 0)
    (hslam : (canonicalize O 0 lon1 0 lon2).slam12 ≠ 0)
    (hguard : g.f ≤ 0 ∨ (canonicalize O 0 lon1 0 lon2).lon12s ≥ g.f * hd) :
    (geod_geninverse O g 0 lon1 0 lon2 outmask0).s12 =
      g.a * (|(AngDiff lon1 lon2).1| * degree O) ∧
    (geod_geninverse O g 0 lon1 0 lon2 outmask0).a12 =
      |(AngDiff lon1 lon2).1| / g.f1 ∧
    (geod_geninverse O g 0 lon1 0 lon2 outmask0).azi1 =
      (if (AngDiff lon1 lon2).1 < 0 then -qd else qd) ∧
    (geod_geninverse O g 0 lon1 0 lon2 outmask0).azi2 =
      (if (AngDiff lon1 lon2).1 < 0 then -qd else qd) :=
  geninverse_equatorial O g lon1 lon2 outmask0 hsin0 hcos0 hhyp hatan htiny
    hdist hslam hguard

/-- Exactly-rounded longitude difference from 0 to 10 degrees. -/
theorem AngDiff_0_10 : AngDiff 0 10 = (10, 0) := by
  have h0 : remainderQ (0 : ℚ) td = 0 := remainderQ_zero td
  have h10 : remainderQ (10 : ℚ) td = 10 :=
    remainderQ_small 10 (by norm_num [td, hd, qd]) (by norm_num [td, hd, qd])
  norm_num [AngDiff, h0, h10, sumx_eq, hd, qd]

/-- Exactly-rounded longitude difference from 10 to 0 degrees. -/
theorem AngDiff_10_0 : AngDiff 10 0 = (-10, 0) := by
  have h0 : remainderQ (0 : ℚ) td = 0 := remainderQ_zero td
  have h10 : remainderQ (-10 : ℚ) td = -10 :=
    remainderQ_small (-10) (by norm_num [td, hd, qd]) (by norm_num [td, hd, qd])
  norm_num [AngDiff, h0, h10, sumx_eq, hd, qd]

/-- sincosde on the concrete oracle at 10 degrees with no correction. -/
theorem sincosde_primX_10 : sincosde primX 10 0 = (1, 0) := by
  have hrq : roundEven ((1 : ℚ) / 9) = 0 :=
    roundEven_small _ (by rw [abs_of_pos] <;> norm_num)
  have hrem : remainderQ (10 : ℚ) 90 = 10 :=
    remainderQ_small 10 (by norm_num) (by norm_num)
  norm_num [sincosde, remquoQ, hrq, hrem, AngRound_eq, degree, primX, hd, qd]

/-- Canonical slam12 for the witness input (0,0) to (0,10). -/
theorem canon_slam_0_10 : (canonicalize primX 0 0 0 10).slam12 = 1 := by
  norm_num [canonicalize, AngDiff_0_10, signbitQ, sincosde_primX_10]

/-- Canonical slam12 for the counterexample input (0,10) to (0,0). -/
theorem canon_slam_10_0 : (canonicalize primX 0 10 0 0).slam12 = 1 := by
  norm_num [canonicalize, AngDiff_10_0, signbitQ, sincosde_primX_10]

/-- The concrete ellipsoid gX is a sphere: zero flattening. -/
theorem gX_f : gX.f = 0 := rfl

/-- Witness instantiating the amended C4 on the concrete model, going east
from (0,0) to (0,10). -/
theorem C4_equatorial_branch_witness :
    (geod_geninverse primX gX 0 0 0 10 GEOD_DISTANCE).s12 =
      gX.a * (|(AngDiff 0 10).1| * degree primX) ∧
    (geod_geninverse primX gX 0 0 0 10 GEOD_DISTANCE).a12 =
      |(AngDiff 0 10).1| / gX.f1 ∧
    (geod_geninverse primX gX 0 0 0 10 GEOD_DISTANCE).azi1 =
      (if (AngDiff 0 10).1 < 0 then -qd else qd) ∧
    (geod_geninverse primX gX 0 0 0 10 GEOD_DISTANCE).azi2 =
      (if (AngDiff 0 10).1 < 0 then -qd else qd) :=
  C4_equatorial_branch primX gX 0 10 GEOD_DISTANCE
    (by norm_num [primX]) (by norm_num [primX]) (by norm_num [primX])
    (by norm_num [primX]) (by norm_num [tiny, primX]) (by decide)
    (by rw [canon_slam_0_10]; norm_num)
    (Or.inl (le_of_eq gX_f))

/-- Counterexample to the original C4: the westward equatorial inverse from
(0,10) to (0,0) satisfies the equatorial branch's hypotheses (zero
latitudes, nonzero canonical slam12, guard holds since f = 0), yet both
azimuths are -90 (due west), not +90 as claimed. -/
theorem C4_counterexample :
    (canonicalize primX 0 10 0 0).slam12 ≠ 0 ∧
    gX.f ≤ 0 ∧
    (geod_geninverse primX gX 0 10 0 0 GEOD_DISTANCE).azi1 = -qd ∧
    (geod_geninverse primX gX 0 10 0 0 GEOD_DISTANCE).azi2 = -qd ∧
    (-qd : ℚ) ≠ qd := by
  have h := geninverse_equatorial primX gX 10 0 GEOD_DISTANCE
    (by norm_num [primX]) (by norm_num [primX]) (by norm_num [primX])
    (by norm_num [primX]) (by norm_num [tiny, primX]) (by decide)
    (by rw [canon_slam_10_0]; norm_num)
    (Or.inl (le_of_eq gX_f))
  refine ⟨by rw [canon_slam_10_0]; norm_num, le_of_eq gX_f, ?_, ?_,
    by norm_num [qd]⟩
  · rw [h.2.2.1, AngDiff_10_0]
    norm_num
  · rw [h.2.2.2, AngDiff_10_0]
    norm_num

/-- accsum in exact arithmetic: the would-be value of the accumulator. -/
theorem accsum_eq (s : ℚ × ℚ) (y : ℚ) : accsum s y = y + s.2 + s.1 := by
  unfold accsum
  rw [accadd_eq]

/-- Claim C8 (amended): the test queries never change the accumulator, and
on a zero-residual accumulator testpoint returns exactly what addpoint
followed by compute would, while testedge does so only when at least one
vertex is present. -/
theorem C8_test_queries (O : Prim) (g : geod_geodesic) (inv : InvFn)
    (dir : DirFn) (p : geod_polygon) (lat lon azi s : ℚ)
    (reverse sign : Bool) (hP : p.P.2 = 0) (hA : p.A.2 = 0) :
    (geod_polygon_testpoint O g inv p lat lon reverse sign).1 = p ∧
    (geod_polygon_testedge O g inv dir p azi s reverse sign).1 = p ∧
    (geod_polygon_testpoint O g inv p lat lon reverse sign).2 =
      geod_polygon_compute O g inv (geod_polygon_addpoint inv p lat lon)
        reverse sign ∧
    (p.num ≠ 0 →
      (geod_polygon_testedge O g inv dir p azi s reverse sign).2 =
        geod_polygon_compute O g inv (geod_polygon_addedge dir p azi s)
          reverse sign) := by
  refine ⟨?_, ?_, ?_, ?_⟩
  · simp only [geod_polygon_testpoint]
    split_ifs <;> rfl
  · simp only [geod_polygon_testedge]
    split_ifs <;> rfl
  · rcases Nat.eq_zero_or_pos p.num with h0 | hn
    · simp [geod_polygon_testpoint, geod_polygon_addpoint,
        geod_polygon_compute, h0]
    · have hne : p.num ≠ 0 := hn.ne'
      have h1 : ¬(p.num + 1 = 1) := by omega
      have h2 : ¬(p.num + 1 < 2) := by omega
      cases hpl : p.polyline
      · simp [geod_polygon_testpoint, geod_polygon_addpoint,
          geod_polygon_compute, hpl, hne, h1, h2, accadd_eq, accsum_eq,
          accadd_pair, areareduceA_eq_areareduceB, hP, hA, Prod.ext_iff]
        constructor
        · congr 1
          ring
        · ring
      · simp [geod_polygon_testpoint, geod_polygon_addpoint,
          geod_polygon_compute, hpl, hne, h1, h2, accadd_eq, accsum_eq,
          hP, hA, Prod.ext_iff]
        ring
  · intro hne
    have h1 : ¬(p.num + 1 = 1) := by omega
    have h2 : ¬(p.num + 1 < 2) := by omega
    cases hpl : p.polyline
    · simp [geod_polygon_testedge, geod_polygon_addedge,
        geod_polygon_compute, hpl, hne, h1, h2, accadd_eq, accsum_eq,
        accadd_pair, areareduceA_eq_areareduceB, hP, hA, Prod.ext_iff]
      constructor
      · congr 1
        ring
      · ring
    · simp [geod_polygon_testedge, geod_polygon_addedge,
        geod_polygon_compute, hpl, hne, h1, h2, accadd_eq, accsum_eq,
        hP, hA, Prod.ext_iff]
      ring

/-- Witness instantiating C8 on a concrete two-vertex accumulator. -/
theorem C8_test_queries_witness :
    (geod_polygon_testpoint primX gX invX polyX 1 2 false false).1 = polyX ∧
    (geod_polygon_testedge primX gX invX dirX polyX 3 4 false false).1 =
      polyX ∧
    (geod_polygon_testpoint primX gX invX polyX 1 2 false false).2 =
      geod_polygon_compute primX gX invX
        (geod_polygon_addpoint invX polyX 1 2) false false ∧
    (polyX.num ≠ 0 →
      (geod_polygon_testedge primX gX invX dirX polyX 3 4 false false).2 =
        geod_polygon_compute primX gX invX
          (geod_polygon_addedge dirX polyX 3 4) false false) :=
  C8_test_queries primX gX invX dirX polyX 1 2 3 4 false false rfl rfl

/-- Counterexample to the original C8: on an empty accumulator testedge
reports 0 vertices with NaN (junk 99) perimeter and area, while addedge
followed by compute reports zeros, so the test query does not return what
the mutating sequence would. -/
theorem C8_counterexample :
    (geod_polygon_testedge primX gX invX dirX (geod_polygon_init primX false)
      3 4 false false).2 = (0, 99, 99) ∧
    geod_polygon_compute primX gX invX
      (geod_polygon_addedge dirX (geod_polygon_init primX false) 3 4)
      false false = (0, 0, 0) ∧
    (99 : ℚ) ≠ 0 := by
  refine ⟨rfl, rfl, by norm_num⟩

/-- The error term of the exactly-rounded angle difference is exactly zero
in the exact model. -/
theorem AngDiff_snd (x y : ℚ) : (AngDiff x y).2 = 0 := by
  simp only [AngDiff, sumx_eq]

/-- The exactly-rounded angle difference is antisymmetric. -/
theorem AngDiff_antisym (x y : ℚ) : (AngDiff y x).1 = -(AngDiff x y).1 := by
  have hxx := remainderQ_neg (-x) td
  rw [neg_neg] at hxx
  have hyy := remainderQ_neg y td
  simp only [AngDiff, sumx_eq, add_zero]
  have key : remainderQ (remainderQ (-y) td + remainderQ x td) td =
      -remainderQ (remainderQ (-x) td + remainderQ y td) td := by
    rw [hyy, hxx]
    have e : -remainderQ y td + -remainderQ (-x) td =
        -(remainderQ (-x) td + remainderQ y td) := by ring
    rw [e, remainderQ_neg]
  rw [key]
  set D := remainderQ (remainderQ (-x) td + remainderQ y td) td with hD
  by_cases htie : D = 0 ∨ |D| = hd
  · have htie' : -D = 0 ∨ |(-D)| = hd := by
      rcases htie with h | h
      · exact Or.inl (by rw [h]; ring)
      · exact Or.inr (by rw [abs_neg]; exact h)
    rw [if_pos htie', if_pos htie]
    simp only [eq_self_iff_true, if_true]
    unfold copysignQ
    rcases lt_trichotomy (y - x) 0 with h | h | h
    · rw [if_neg (by linarith : ¬(x - y < 0)), if_pos h, abs_neg]
      ring
    · have hzero : D = 0 := by
        have hyx : y = x := by linarith
        rw [hD, hyx, hxx]
        have e2 : remainderQ (-x) td + -remainderQ (-x) td = 0 := by ring
        rw [e2, remainderQ_zero]
      rw [if_neg (by linarith : ¬(x - y < 0)),
        if_neg (by linarith : ¬(y - x < 0)), abs_neg, hzero]
      norm_num
    · rw [if_pos (by linarith : x - y < 0), if_neg (by linarith : ¬(y - x < 0)),
        abs_neg]
  · have htie' : ¬(-D = 0 ∨ |(-D)| = hd) := by
      push_neg at htie ⊢
      exact ⟨fun hz => htie.1 (by linarith), by rw [abs_neg]; exact htie.2⟩
    rw [if_neg htie', if_neg htie]

/-- Canonicalization characterized in closed form for in-range latitudes. -/
theorem canonicalize_eq (O : Prim) (lat1 lon1 lat2 lon2 : ℚ)
    (h1 : |lat1| ≤ qd) (h2 : |lat2| ≤ qd) :
    canonicalize O lat1 lon1 lat2 lon2 =
      { lat1 := (if |lat1| < |lat2| then lat2 else lat1) *
          (if (if |lat1| < |lat2| then lat2 else lat1) < 0 then 1 else -1)
        lat2 := (if |lat1| < |lat2| then lat1 else lat2) *
          (if (if |lat1| < |lat2| then lat2 else lat1) < 0 then 1 else -1)
        lon12 := (AngDiff lon1 lon2).1 *
          (if (AngDiff lon1 lon2).1 < 0 then -1 else 1)
        lon12s := (hd - (AngDiff lon1 lon2).1 *
            (if (AngDiff lon1 lon2).1 < 0 then -1 else 1)) -
          (AngDiff lon1 lon2).2 * (if (AngDiff lon1 lon2).1 < 0 then -1 else 1)
        lam12 := (AngDiff lon1 lon2).1 *
          (if (AngDiff lon1 lon2).1 < 0 then -1 else 1) * degree O
        slam12 := (sincosde O
          ((AngDiff lon1 lon2).1 * (if (AngDiff lon1 lon2).1 < 0 then -1 else 1))
          ((AngDiff lon1 lon2).2 *
            (if (AngDiff lon1 lon2).1 < 0 then -1 else 1))).1
        clam12 := (sincosde O
          ((AngDiff lon1 lon2).1 * (if (AngDiff lon1 lon2).1 < 0 then -1 else 1))
          ((AngDiff lon1 lon2).2 *
            (if (AngDiff lon1 lon2).1 < 0 then -1 else 1))).2
        lonsign := (if |lat1| < |lat2| then -1 else 1) *
          (if (AngDiff lon1 lon2).1 < 0 then -1 else 1)
        latsign := if (if |lat1| < |lat2| then lat2 else lat1) < 0 then 1 else -1
        swapp := if |lat1| < |lat2| then -1 else 1 } := by
  rcases lt_or_ge |lat1| |lat2| with hl | hl
  · norm_num [canonicalize, LatFix_eq O h1, LatFix_eq O h2, AngRound_eq,
      signbitQ, hl]
    try split_ifs <;> norm_num
  · norm_num [canonicalize, LatFix_eq O h1, LatFix_eq O h2, AngRound_eq,
      signbitQ, not_lt.mpr hl]
    try split_ifs <;> norm_num

/-- Claim C6 (amended): for in-range latitudes, the inverse problems A to B
and B to A always produce the same s12 and the same a12: both calls hand the
concrete canonical-frame core geninverseCore the identical canonical inputs.
When the two absolute latitudes differ, the azimuth sine/cosine pairs of the
two calls are in addition related exactly by the canonicalization's recorded
signs: the cosines swap and negate, and the sines swap and negate when the
exactly-rounded longitude difference is nonzero (and swap unnegated when it
is zero, the meridian case). At coincident points the swap/negate
correspondence fails (see the counterexample). -/
theorem C6_inverse_symmetry (O : Prim) (g : geod_geodesic)
    (lat1 lon1 lat2 lon2 : ℚ) (M : ℕ)
    (h1 : |lat1| ≤ qd) (h2 : |lat2| ≤ qd) :
    (geod_geninverse_int O g lat2 lon2 lat1 lon1 M).s12 =
      (geod_geninverse_int O g lat1 lon1 lat2 lon2 M).s12 ∧
    (geod_geninverse_int O g lat2 lon2 lat1 lon1 M).a12 =
      (geod_geninverse_int O g lat1 lon1 lat2 lon2 M).a12 ∧
    (|lat2| < |lat1| →
      (geod_geninverse_int O g lat2 lon2 lat1 lon1 M).calp1 =
        -(geod_geninverse_int O g lat1 lon1 lat2 lon2 M).calp2 ∧
      (geod_geninverse_int O g lat2 lon2 lat1 lon1 M).calp2 =
        -(geod_geninverse_int O g lat1 lon1 lat2 lon2 M).calp1 ∧
      (geod_geninverse_int O g lat2 lon2 lat1 lon1 M).salp1 =
        (if (AngDiff lon1 lon2).1 = 0 then
          (geod_geninverse_int O g lat1 lon1 lat2 lon2 M).salp2
        else -(geod_geninverse_int O g lat1 lon1 lat2 lon2 M).salp2) ∧
      (geod_geninverse_int O g lat2 lon2 lat1 lon1 M).salp2 =
        (if (AngDiff lon1 lon2).1 = 0 then
          (geod_geninverse_int O g lat1 lon1 lat2 lon2 M).salp1
        else -(geod_geninverse_int O g lat1 lon1 lat2 lon2 M).salp1)) := by
  have hA1 : (AngDiff lon2 lon1).1 = -(AngDiff lon1 lon2).1 :=
    AngDiff_antisym lon1 lon2
  have hsB : (AngDiff lon2 lon1).2 = 0 := AngDiff_snd lon2 lon1
  have hsA : (AngDiff lon1 lon2).2 = 0 := AngDiff_snd lon1 lon2
  simp only [geod_geninverse_int, geninverseWrap]
  rw [canonicalize_eq O lat1 lon1 lat2 lon2 h1 h2,
    canonicalize_eq O lat2 lon2 lat1 lon1 h2 h1]
  simp only [hA1, hsB, hsA]
  rcases lt_trichotomy (AngDiff lon1 lon2).1 0 with hdneg | hdzero | hdpos
  · have hnd : ¬(-(AngDiff lon1 lon2).1 < 0) := by linarith
    rcases lt_trichotomy |lat1| |lat2| with hlt | heq | hgt
    · have hnl : ¬(|lat2| < |lat1|) := by linarith
      refine ⟨?_, ?_, fun hc => absurd hc hnl⟩ <;>
      · norm_num [hdneg, hnd, hlt, hnl]
    · have hn1 : ¬(|lat1| < |lat2|) := by linarith
      have hn2 : ¬(|lat2| < |lat1|) := by linarith
      refine ⟨?_, ?_, fun hc => absurd hc hn2⟩ <;>
      · by_cases hq : lat2 = lat1
        · subst hq
          norm_num [hdneg, hnd, hn1]
        · have hq2 : lat2 = -lat1 := by
            rcases abs_eq_abs.mp heq with h | h
            · exact absurd h.symm hq
            · linarith
          subst hq2
          have hz : lat1 ≠ 0 := by
            intro h
            exact hq (by rw [h]; norm_num)
          rcases hz.lt_or_lt with hneg | hpos
          · norm_num [hdneg, hnd, hn1, hn2, abs_neg, hneg,
              not_lt.mpr (by linarith : (0 : ℚ) ≤ -lat1)]
          · norm_num [hdneg, hnd, hn1, hn2, abs_neg,
              not_lt.mpr (by linarith : (0 : ℚ) ≤ lat1),
              (by linarith : -lat1 < 0)]
    · have hnl : ¬(|lat1| < |lat2|) := by linarith
      norm_num [hdneg, hdneg.ne, hnd, hgt, hnl]
      repeat' apply And.intro
      all_goals (try split_ifs) <;> ring1
  · have hz0 : -(AngDiff lon1 lon2).1 = 0 := by rw [hdzero]; ring
    rcases lt_trichotomy |lat1| |lat2| with hlt | heq | hgt
    · have hnl : ¬(|lat2| < |lat1|) := by linarith
      refine ⟨?_, ?_, fun hc => absurd hc hnl⟩ <;>
      · norm_num [hdzero, hz0, hlt, hnl]
    · have hn1 : ¬(|lat1| < |lat2|) := by linarith
      have hn2 : ¬(|lat2| < |lat1|) := by linarith
      refine ⟨?_, ?_, fun hc => absurd hc hn2⟩ <;>
      · by_cases hq : lat2 = lat1
        · subst hq
          norm_num [hdzero, hz0, hn1]
        · have hq2 : lat2 = -lat1 := by
            rcases abs_eq_abs.mp heq with h | h
            · exact absurd h.symm hq
            · linarith
          subst hq2
          have hz : lat1 ≠ 0 := by
            intro h
            exact hq (by rw [h]; norm_num)
          rcases hz.lt_or_lt with hneg | hpos
          · norm_num [hdzero, hz0, hn1, hn2, abs_neg, hneg,
              not_lt.mpr (by linarith : (0 : ℚ) ≤ -lat1)]
          · norm_num [hdzero, hz0, hn1, hn2, abs_neg,
              not_lt.mpr (by linarith : (0 : ℚ) ≤ lat1),
              (by linarith : -lat1 < 0)]
    · have hnl : ¬(|lat1| < |lat2|) := by linarith
      norm_num [hdzero, hz0, hgt, hnl]
      repeat' apply And.intro
      all_goals (try split_ifs) <;> ring1
  · have hnd : (-(AngDiff lon1 lon2).1 < 0) := by linarith
    have hdn : ¬((AngDiff lon1 lon2).1 < 0) := by linarith
    rcases lt_trichotomy |lat1| |lat2| with hlt | heq | hgt
    · have hnl : ¬(|lat2| < |lat1|) := by linarith
      refine ⟨?_, ?_, fun hc => absurd hc hnl⟩ <;>
      · norm_num [hdn, hnd, hlt, hnl]
    · have hn1 : ¬(|lat1| < |lat2|) := by linarith
      have hn2 : ¬(|lat2| < |lat1|) := by linarith
      refine ⟨?_, ?_, fun hc => absurd hc hn2⟩ <;>
      · by_cases hq : lat2 = lat1
        · subst hq
          norm_num [hdn, hnd, hn1]
        · have hq2 : lat2 = -lat1 := by
            rcases abs_eq_abs.mp heq with h | h
            · exact absurd h.symm hq
            · linarith
          subst hq2
          have hz : lat1 ≠ 0 := by
            intro h
            exact hq (by rw [h]; norm_num)
          rcases hz.lt_or_lt with hneg | hpos
          · norm_num [hdn, hnd, hn1, hn2, abs_neg, hneg,
              not_lt.mpr (by linarith : (0 : ℚ) ≤ -lat1)]
          · norm_num [hdn, hnd, hn1, hn2, abs_neg,
              not_lt.mpr (by linarith : (0 : ℚ) ≤ lat1),
              (by linarith : -lat1 < 0)]
    · have hnl : ¬(|lat1| < |lat2|) := by linarith
      norm_num [hdn, hdpos.ne', hnd, hgt, hnl]
      repeat' apply And.intro
      all_goals (try split_ifs) <;> ring1

/-- Witness instantiating the amended C6 on the concrete solver at the
meridian pair (20, 0) to (10, 0): same s12 and a12, and the full azimuth
sign correspondence of the distinct-absolute-latitude case. -/
theorem C6_inverse_symmetry_witness :
    (geod_geninverse_int primX gX 10 0 20 0 0).s12 =
      (geod_geninverse_int primX gX 20 0 10 0 0).s12 ∧
    (geod_geninverse_int primX gX 10 0 20 0 0).a12 =
      (geod_geninverse_int primX gX 20 0 10 0 0).a12 ∧
    ((geod_geninverse_int primX gX 10 0 20 0 0).calp1 =
      -(geod_geninverse_int primX gX 20 0 10 0 0).calp2 ∧
     (geod_geninverse_int primX gX 10 0 20 0 0).calp2 =
      -(geod_geninverse_int primX gX 20 0 10 0 0).calp1 ∧
     (geod_geninverse_int primX gX 10 0 20 0 0).salp1 =
      (if (AngDiff (0 : ℚ) 0).1 = 0 then
        (geod_geninverse_int primX gX 20 0 10 0 0).salp2
      else -(geod_geninverse_int primX gX 20 0 10 0 0).salp2) ∧
     (geod_geninverse_int primX gX 10 0 20 0 0).salp2 =
      (if (AngDiff (0 : ℚ) 0).1 = 0 then
        (geod_geninverse_int primX gX 20 0 10 0 0).salp1
      else -(geod_geninverse_int primX gX 20 0 10 0 0).salp1)) :=
  ⟨(C6_inverse_symmetry primX gX 20 0 10 0 0
      (by norm_num [qd]) (by norm_num [qd])).1,
   (C6_inverse_symmetry primX gX 20 0 10 0 0
      (by norm_num [qd]) (by norm_num [qd])).2.1,
   (C6_inverse_symmetry primX gX 20 0 10 0 0
      (by norm_num [qd]) (by norm_num [qd])).2.2 (by norm_num)⟩

/-- Exactly-rounded angle difference of equal angles. -/
theorem AngDiff_0_0 : AngDiff 0 0 = (0, 0) := by
  norm_num [AngDiff, remainderQ_zero, sumx_eq, copysignQ]

/-- sincosde on the concrete oracle at 0 with no correction. -/
theorem sincosde_primX_0 : sincosde primX 0 0 = (0, 1) := by
  norm_num [sincosde, remquoQ, remainderQ_zero, roundEven_zero, AngRound_eq,
    degree, primX, copysignQ, hd, qd]

/-- Round-to-even of -1/2 is 0 (tie toward the even integer). -/
theorem roundEven_mhalf : roundEven (-((1 : ℚ) / 2)) = 0 := by
  rw [roundEven_spec]
  norm_num

/-- sincosdx on the concrete oracle at -45 degrees. -/
theorem sincosdx_primX_m45 : sincosdx primX (-45) = (1, 0) := by
  norm_num [sincosdx, remquoQ, remainderQ, roundEven_mhalf, degree, primX,
    copysignQ, hd, qd]

/-- The concrete sphere gX has f1 = 1. -/
theorem gX_f1 : gX.f1 = 1 := by
  norm_num [gX, geod_init]

/-- Counterexample to the original C6: for the coincident pair
A = B = (45, 0) the two inverse calls are literally the same call, both
azimuth cosine outputs are -1, and the swap/negate correspondence
calp1 of one call = -calp2 of the other fails (-1 is not 1). -/
theorem C6_counterexample :
    (geod_geninverse_int primX gX 45 0 45 0 0).calp1 = -1 ∧
    (geod_geninverse_int primX gX 45 0 45 0 0).calp2 = -1 ∧
    ((-1 : ℚ)) ≠ -(-1 : ℚ) := by
  refine ⟨?_, ?_, by norm_num⟩ <;>
  · simp only [geod_geninverse_int, geninverseWrap]
    rw [canonicalize_eq primX 45 0 45 0 (by norm_num [qd]) (by norm_num [qd])]
    norm_num [AngDiff_0_0, sincosde_primX_0]
    norm_num [geninverseCore, sincosdx_primX_m45, gX_f1, norm2, fmaxQ,
      tiny, primX, qd, coreEquatorial]

/-- copysign preserves the magnitude. -/
theorem abs_copysignQ (v s : ℚ) : |copysignQ v s| = |v| := by
  unfold copysignQ
  split_ifs <;> simp [abs_abs, abs_neg]

/-- The exactly-rounded angle difference is at most 180 in magnitude. -/
theorem AngDiff_abs_le (x y : ℚ) : |(AngDiff x y).1| ≤ hd := by
  have htd : (0 : ℚ) < td := by norm_num [td, hd, qd]
  have hrem : ∀ z : ℚ, |remainderQ z td| ≤ hd := by
    intro z
    have h := remainderQ_abs_le z htd
    have e : td / 2 = hd := by norm_num [td]
    linarith [h, le_of_eq e]
  simp only [AngDiff, sumx_eq, add_zero]
  split_ifs with h
  · rw [abs_copysignQ]
    exact hrem _
  · exact hrem _

/-- Canonical longitude difference, raw form. -/
theorem canonicalize_lon12_raw (O : Prim) (la1 lo1 la2 lo2 : ℚ) :
    (canonicalize O la1 lo1 la2 lo2).lon12 =
      (AngDiff lo1 lo2).1 *
        (if signbitQ (AngDiff lo1 lo2).1 then (-1 : ℚ) else 1) := rfl

/-- Canonical supplementary longitude difference, raw form. -/
theorem canonicalize_lon12s_raw (O : Prim) (la1 lo1 la2 lo2 : ℚ) :
    (canonicalize O la1 lo1 la2 lo2).lon12s =
      (hd - (AngDiff lo1 lo2).1 *
        (if signbitQ (AngDiff lo1 lo2).1 then (-1 : ℚ) else 1)) -
      (AngDiff lo1 lo2).2 *
        (if signbitQ (AngDiff lo1 lo2).1 then (-1 : ℚ) else 1) := rfl

/-- The canonical longitude difference is nonnegative. -/
theorem canon_lon12_nonneg (O : Prim) (la1 lo1 la2 lo2 : ℚ) :
    0 ≤ (canonicalize O la1 lo1 la2 lo2).lon12 := by
  rw [canonicalize_lon12_raw]
  rcases lt_or_ge (AngDiff lo1 lo2).1 0 with h | h
  · rw [if_pos (by simpa [signbitQ] using h)]
    nlinarith
  · rw [if_neg (by simpa [signbitQ] using not_lt.mpr h)]
    nlinarith

/-- The canonical longitude difference is at most 180. -/
theorem canon_lon12_le (O : Prim) (la1 lo1 la2 lo2 : ℚ) :
    (canonicalize O la1 lo1 la2 lo2).lon12 ≤ hd := by
  have habs := AngDiff_abs_le lo1 lo2
  rw [canonicalize_lon12_raw]
  rcases abs_le.mp habs with ⟨ha, hb⟩
  rcases lt_or_ge (AngDiff lo1 lo2).1 0 with h | h
  · rw [if_pos (by simpa [signbitQ] using h)]
    nlinarith
  · rw [if_neg (by simpa [signbitQ] using not_lt.mpr h)]
    nlinarith

/-- The canonical supplementary longitude difference is exactly
180 minus the canonical longitude difference (the error term is zero). -/
theorem canon_lon12s_eq (O : Prim) (la1 lo1 la2 lo2 : ℚ) :
    (canonicalize O la1 lo1 la2 lo2).lon12s =
      hd - (canonicalize O la1 lo1 la2 lo2).lon12 := by
  rw [canonicalize_lon12s_raw, canonicalize_lon12_raw, AngDiff_snd]
  ring

/-- The sig12 produced by one Lambda12 evaluation lies in [0, pi] whenever
the oracle atan2 maps a nonnegative ordinate into [0, pi]. -/
theorem Lambda12_sig12_range (O : Prim) (g : geod_geodesic)
    (sbet1 cbet1 dn1 sbet2 cbet2 dn2 salp1 calp1 slam120 clam120 : ℚ)
    (diffp : Bool)
    (hA : ∀ y x : ℚ, 0 ≤ y → 0 ≤ O.atan2 y x ∧ O.atan2 y x ≤ O.pi) :
    0 ≤ (Lambda12 O g sbet1 cbet1 dn1 sbet2 cbet2 dn2 salp1 calp1
        slam120 clam120 diffp).sig12 ∧
    (Lambda12 O g sbet1 cbet1 dn1 sbet2 cbet2 dn2 salp1 calp1
        slam120 clam120 diffp).sig12 ≤ O.pi := by
  have key : ∀ a b : ℚ, 0 ≤ O.atan2 (fmaxQ 0 a + 0) b ∧
      O.atan2 (fmaxQ 0 a + 0) b ≤ O.pi := by
    intro a b
    exact hA _ _ (by simp [fmaxQ])
  simp only [Lambda12]
  exact key _ _

/-- The Newton/bisection loop preserves sig12 in [0, pi]: the loop body
always stores a Lambda12 sig12, and the bracket updates do not touch it. -/
theorem newtonLoop_sig12 (O : Prim) (g : geod_geodesic)
    (sbet1 cbet1 dn1 sbet2 cbet2 dn2 slam12 clam12 : ℚ)
    (hA : ∀ y x : ℚ, 0 ≤ y → 0 ≤ O.atan2 y x ∧ O.atan2 y x ≤ O.pi) :
    ∀ (fuel numit : ℕ) (st : NSt), 0 ≤ st.sig12 → st.sig12 ≤ O.pi →
      0 ≤ (newtonLoop O g sbet1 cbet1 dn1 sbet2 cbet2 dn2 slam12 clam12
          fuel numit st).1.sig12 ∧
      (newtonLoop O g sbet1 cbet1 dn1 sbet2 cbet2 dn2 slam12 clam12
          fuel numit st).1.sig12 ≤ O.pi := by
  intro fuel
  induction fuel with
  | zero =>
    intro numit st h0 h1
    exact ⟨h0, h1⟩
  | succ n ih =>
    intro numit st h0 h1
    have hL := Lambda12_sig12_range O g sbet1 cbet1 dn1 sbet2 cbet2 dn2
      st.salp1 st.calp1 slam12 clam12 (decide (numit < maxit1)) hA
    simp only [newtonLoop]
    by_cases hbr : st.tripb = true ∨
        ¬(|(Lambda12 O g sbet1 cbet1 dn1 sbet2 cbet2 dn2 st.salp1 st.calp1
            slam12 clam12 (decide (numit < maxit1))).lam12| ≥
          (if st.tripn = true then (8 : ℚ) else 1) * tol0) ∨
        numit = maxit2
    · rw [if_pos hbr]
      exact ⟨hL.1, hL.2⟩
    · rw [if_neg hbr]
      refine ih _ _ ?_ ?_
      · split
        · rename_i stn heq
          split_ifs at heq <;>
            first
            | exact Option.noConfusion heq
            | (rw [Option.some.injEq] at heq
               subst heq
               exact hL.1)
        · split_ifs <;> exact hL.1
      · split
        · rename_i stn heq
          split_ifs at heq <;>
            first
            | exact Option.noConfusion heq
            | (rw [Option.some.injEq] at heq
               subst heq
               exact hL.2)
        · split_ifs <;> exact hL.2

/-- The sig12 reported by InverseStart is the -1 sentinel or a value in
[0, pi]. -/
theorem InverseStart_sig12 (O : Prim) (g : geod_geodesic)
    (sbet1 cbet1 dn1 sbet2 cbet2 dn2 lam12 slam12 clam12 : ℚ)
    (hA : ∀ y x : ℚ, 0 ≤ y → 0 ≤ O.atan2 y x ∧ O.atan2 y x ≤ O.pi)
    (hH : ∀ x y : ℚ, 0 ≤ O.hypot x y) :
    (InverseStart O g sbet1 cbet1 dn1 sbet2 cbet2 dn2 lam12 slam12
      clam12).sig12 = -1 ∨
    (0 ≤ (InverseStart O g sbet1 cbet1 dn1 sbet2 cbet2 dn2 lam12 slam12
        clam12).sig12 ∧
      (InverseStart O g sbet1 cbet1 dn1 sbet2 cbet2 dn2 lam12 slam12
        clam12).sig12 ≤ O.pi) := by
  have main : ∀ P : ℚ → Prop, P (-1) →
      (∀ y x : ℚ, 0 ≤ y → P (O.atan2 y x)) →
      P ((InverseStart O g sbet1 cbet1 dn1 sbet2 cbet2 dn2 lam12 slam12
        clam12).sig12) := by
    intro P h1 h2
    simp only [InverseStart]
    split_ifs <;> first | exact h1 | exact h2 _ _ (hH _ _)
  exact main (fun z => z = -1 ∨ (0 ≤ z ∧ z ≤ O.pi)) (Or.inl rfl)
    (fun y x hy => Or.inr (hA y x hy))

/-- The arc length reported by the equatorial closed-form branch lies in
[0, 180] under the branch guard. -/
theorem coreEquatorial_a12_range (O : Prim) (g : geod_geodesic) (m : ℕ)
    (lon12 lon12s lam : ℚ)
    (hf1 : g.f1 = 1 - g.f) (hf1pos : 0 < g.f1)
    (hlon0 : 0 ≤ lon12) (hlonhd : lon12 ≤ hd) (hlons : lon12s = hd - lon12)
    (hguard : g.f ≤ 0 ∨ lon12s ≥ g.f * hd) :
    0 ≤ (coreEquatorial O g m lon12 lam).a12 ∧
    (coreEquatorial O g m lon12 lam).a12 ≤ hd := by
  have e : (coreEquatorial O g m lon12 lam).a12 = lon12 / g.f1 := rfl
  have hhd180 : (hd : ℚ) = 180 := by norm_num [hd, qd]
  rw [e]
  constructor
  · exact div_nonneg hlon0 hf1pos.le
  · rw [div_le_iff hf1pos, hf1, hhd180]
    rw [hhd180] at hlonhd
    rcases hguard with hf | hg
    · nlinarith
    · have e2 : g.f * hd = g.f * 180 := by rw [hhd180]
      rw [hhd180] at hlons
      nlinarith [hg, hlons, e2]

set_option maxHeartbeats 1600000 in
/-- The arc length reported by the general (InverseStart plus short-line or
Newton) branch lies in [0, 180]. -/
theorem coreGeneral_a12_range (O : Prim) (g : geod_geodesic) (outmask : ℕ)
    (sbet1 cbet1 dn1 sbet2 cbet2 dn2 lam12 slam12 clam12 : ℚ)
    (hA : ∀ y x : ℚ, 0 ≤ y → 0 ≤ O.atan2 y x ∧ O.atan2 y x ≤ O.pi)
    (hH : ∀ x y : ℚ, 0 ≤ O.hypot x y)
    (hpi : 0 < O.pi) :
    0 ≤ (coreGeneral O g outmask sbet1 cbet1 dn1 sbet2 cbet2 dn2 lam12
        slam12 clam12).a12 ∧
    (coreGeneral O g outmask sbet1 cbet1 dn1 sbet2 cbet2 dn2 lam12
        slam12 clam12).a12 ≤ hd := by
  have hhd : (0 : ℚ) < hd := by norm_num [hd, qd]
  have hdeg : 0 < degree O := div_pos hpi hhd
  have hdegmul : hd * degree O = O.pi := by
    rw [degree, mul_comm, div_mul_cancel₀]
    norm_num [hd, qd]
  have hdiv : ∀ z : ℚ, 0 ≤ z → z ≤ O.pi →
      0 ≤ z / degree O ∧ z / degree O ≤ hd := by
    intro z h0 h1
    refine ⟨div_nonneg h0 hdeg.le, ?_⟩
    rw [div_le_iff hdeg, hdegmul]
    exact h1
  have his := InverseStart_sig12 O g sbet1 cbet1 dn1 sbet2 cbet2 dn2 lam12
    slam12 clam12 hA hH
  have hnl := newtonLoop_sig12 O g sbet1 cbet1 dn1 sbet2 cbet2 dn2 slam12
    clam12 hA
  simp only [coreGeneral]
  split_ifs with hge <;>
    first
    | exact hdiv _ (hnl _ _ _ le_rfl hpi.le).1 (hnl _ _ _ le_rfl hpi.le).2
    | (rcases his with h1 | h1
       · exact absurd hge (by rw [h1]; norm_num)
       · exact hdiv _ h1.1 h1.2)

set_option maxHeartbeats 1600000 in
/-- The arc length reported by the canonical-frame inverse core lies in
[0, 180] whenever the canonical longitude difference does. -/
theorem geninverseCore_a12_range (O : Prim) (g : geod_geodesic) (outmask : ℕ)
    (lat1 lat2 lon12 lon12s lam12 slam12 clam12 : ℚ)
    (hA : ∀ y x : ℚ, 0 ≤ y → 0 ≤ O.atan2 y x ∧ O.atan2 y x ≤ O.pi)
    (hH : ∀ x y : ℚ, 0 ≤ O.hypot x y)
    (hpi : 0 < O.pi)
    (hf1 : g.f1 = 1 - g.f) (hf1pos : 0 < g.f1)
    (hlon0 : 0 ≤ lon12) (hlonhd : lon12 ≤ hd) (hlons : lon12s = hd - lon12) :
    0 ≤ (geninverseCore O g outmask lat1 lat2 lon12 lon12s lam12 slam12
        clam12).a12 ∧
    (geninverseCore O g outmask lat1 lat2 lon12 lon12s lam12 slam12
        clam12).a12 ≤ hd := by
  have hhd : (0 : ℚ) < hd := by norm_num [hd, qd]
  have hdeg : 0 < degree O := div_pos hpi hhd
  have hdegmul : hd * degree O = O.pi := by
    rw [degree, mul_comm, div_mul_cancel₀]
    norm_num [hd, qd]
  have hdiv : ∀ z : ℚ, 0 ≤ z → z ≤ O.pi →
      0 ≤ z / degree O ∧ z / degree O ≤ hd := by
    intro z h0 h1
    refine ⟨div_nonneg h0 hdeg.le, ?_⟩
    rw [div_le_iff hdeg, hdegmul]
    exact h1
  have key : ∀ a b : ℚ, 0 ≤ O.atan2 (fmaxQ 0 a + 0) b ∧
      O.atan2 (fmaxQ 0 a + 0) b ≤ O.pi := by
    intro a b
    exact hA _ _ (by simp [fmaxQ])
  have ceq : ∀ (m : ℕ) (lam : ℚ), (g.f ≤ 0 ∨ lon12s ≥ g.f * hd) →
      0 ≤ (coreEquatorial O g m lon12 lam).a12 ∧
      (coreEquatorial O g m lon12 lam).a12 ≤ hd := by
    intro m lam hguard
    exact coreEquatorial_a12_range O g m lon12 lon12s lam hf1 hf1pos hlon0
      hlonhd hlons hguard
  have hG : ∀ sb1 cb1 d1 sb2 cb2 d2 lm sl cl : ℚ,
      0 ≤ (coreGeneral O g outmask sb1 cb1 d1 sb2 cb2 d2 lm sl cl).a12 ∧
      (coreGeneral O g outmask sb1 cb1 d1 sb2 cb2 d2 lm sl cl).a12 ≤ hd :=
    fun sb1 cb1 d1 sb2 cb2 d2 lm sl cl =>
      coreGeneral_a12_range O g outmask sb1 cb1 d1 sb2 cb2 d2 lm sl cl
        hA hH hpi
  have hiteD : ∀ (c : Prop) (inst : Decidable c) (x y : PreArea),
      (c → 0 ≤ x.a12 ∧ x.a12 ≤ hd) → (¬c → 0 ≤ y.a12 ∧ y.a12 ≤ hd) →
      0 ≤ (@ite _ c inst x y).a12 ∧ (@ite _ c inst x y).a12 ≤ hd := by
    intro c inst x y hx hy
    by_cases h : c
    · rw [if_pos h]
      exact hx h
    · rw [if_neg h]
      exact hy h
  have hiteT : ∀ (c : Prop) (inst : Decidable c) (x y : ℚ × ℚ × ℚ),
      (0 ≤ x.1 / degree O ∧ x.1 / degree O ≤ hd) →
      (0 ≤ y.1 / degree O ∧ y.1 / degree O ≤ hd) →
      0 ≤ (@ite _ c inst x y).1 / degree O ∧
        (@ite _ c inst x y).1 / degree O ≤ hd := by
    intro c inst x y hx hy
    by_cases h : c
    · rw [if_pos h]
      exact hx
    · rw [if_neg h]
      exact hy
  simp only [geninverseCore]
  refine hiteD _ _ _ _ ?_ ?_
  · intro hm
    refine hiteD _ _ _ _ ?_ ?_
    · intro hst
      refine hiteT _ _ _ _ ?_ ?_
      · exact hdiv 0 le_rfl hpi.le
      · exact hdiv _ (key _ _).1 (key _ _).2
    · intro hst
      refine hiteD _ _ _ _ ?_ ?_
      · intro hq
        exact ceq _ _ hq.2
      · intro hq
        exact hG _ _ _ _ _ _ _ _ _
  · intro hm
    refine hiteD _ _ _ _ ?_ ?_
    · intro hq
      exact ceq _ _ hq.2
    · intro hq
      exact hG _ _ _ _ _ _ _ _ _

/-- C9: for every oracle whose atan2 maps nonnegative ordinates into
[0, pi] and whose hypot is nonnegative (as the libm functions do), every
ellipsoid with f1 = 1 - f > 0, and every pair of endpoints, the arc length
a12 returned by the inverse solver lies in [0, 180] degrees: the
auxiliary-sphere arc sig12 is kept in [0, pi] in every branch of the
solver. -/
theorem C9_a12_range (O : Prim) (g : geod_geodesic)
    (lat1 lon1 lat2 lon2 : ℚ) (outmask : ℕ)
    (hA : ∀ y x : ℚ, 0 ≤ y → 0 ≤ O.atan2 y x ∧ O.atan2 y x ≤ O.pi)
    (hH : ∀ x y : ℚ, 0 ≤ O.hypot x y)
    (hpi : 0 < O.pi)
    (hf1 : g.f1 = 1 - g.f) (hf1pos : 0 < g.f1) :
    0 ≤ (geod_geninverse O g lat1 lon1 lat2 lon2 outmask).a12 ∧
    (geod_geninverse O g lat1 lon1 lat2 lon2 outmask).a12 ≤ hd := by
  have h1 := canon_lon12_nonneg O lat1 lon1 lat2 lon2
  have h2 := canon_lon12_le O lat1 lon1 lat2 lon2
  have h3 := canon_lon12s_eq O lat1 lon1 lat2 lon2
  simp only [geod_geninverse, geod_geninverse_int, geninverseWrap]
  exact geninverseCore_a12_range O g (outmask &&& OUT_ALL) _ _ _ _ _ _ _
    hA hH hpi hf1 hf1pos h1 h2 h3

/-- Witness for C9 on the concrete oracle and the unit sphere. -/
theorem C9_a12_range_witness :
    0 ≤ (geod_geninverse primX gX 10 20 30 40 0).a12 ∧
    (geod_geninverse primX gX 10 20 30 40 0).a12 ≤ hd :=
  C9_a12_range primX gX 10 20 30 40 0
    (fun y x _ => by norm_num [primX])
    (fun x y => by simp [primX]; positivity)
    (by norm_num [primX])
    (by norm_num [gX, geod_init])
    (by norm_num [gX, geod_init])

end Geod
